import Mathlib

/-
  Verification development for the salem-1692-moderator game-state engine.

  The definitions below are a shallow embedding of the TypeScript source:
    - src/types.ts               (data model)
    - src/utils/gameLogic.ts     (deck building, dealing, win condition)
    - src/logic/actionHandlers.ts (processPlayerAction)
    - phase transition module    (advancePhase, resolveNight, applyNightDamage)
    - src/App.tsx                (publicState masking, lines 569-593)

  Modelling conventions:
    - Card.type is an Option CardType: the authoritative engine always stores
      some t, and the broadcast masking writes none for unrevealed cards
      (the TS code writes a null into the type field).  An out-of-bounds deck
      read (undefined in TS) also yields none.
    - Log entries carry random ids and wall-clock timestamps in TS; only the
      message string is modelled.
    - Math.random is modelled by a Rand parameter supplying the shuffle
      function, the random-element choices and the random log-message pick.
      Theorems that depend on shuffling assume only that the supplied shuffle
      permutes its input, which is true of the Fisher-Yates shuffle in the
      source.
    - Record<string, number> (fakeVotes) is modelled as a total function
      String -> Nat with default 0, matching the (x || 0) read in the source.
-/

namespace Salem

inductive CardType where
  | NOT_A_WITCH
  | WITCH
  | CONSTABLE
deriving DecidableEq, Repr

structure Card where
  id : String
  type : Option CardType
  isRevealed : Bool
deriving DecidableEq, Repr

structure Player where
  id : String
  name : String
  peerId : String
  isHost : Bool
  isDead : Bool
  hasBlackCat : Bool
  cards : List Card
  hasRevealedWitch : Bool
  immune : Bool
  isDisconnected : Bool
  isGhost : Bool
deriving DecidableEq, Repr

inductive GamePhase where
  | LOBBY
  | SETUP
  | NIGHT_INITIAL_WITCH
  | DAY
  | CONSPIRACY
  | NIGHT_WITCH_VOTE
  | NIGHT_CONSTABLE
  | NIGHT_CONFESSION
  | NIGHT_RESOLUTION
  | GAME_OVER
deriving DecidableEq, Repr

structure ConspiracySelection where
  playerId : String
  selectedCardId : String
deriving DecidableEq, Repr

structure WitchVote where
  voterId : String
  witchName : String
  targetId : String
  targetName : String
deriving DecidableEq, Repr

structure PendingAccusation where
  accuserId : String
  accuserName : String
  targetId : String
  targetName : String
  accepted : Bool
deriving DecidableEq, Repr

structure NightDamageSelection where
  targetId : String
  chooserId : String
  pendingReveal : Bool
deriving DecidableEq, Repr

structure GameState where
  roomId : String
  phase : GamePhase
  players : List Player
  logs : List String
  nightKillTargetId : Option String
  constableGuardId : Option String
  turnCounter : Nat
  witchVotes : List WitchVote
  pendingAccusation : Option PendingAccusation
  conspiracySelections : List ConspiracySelection
  nightConfirmations : List String
  fakeVotes : String → Nat
  isSmallGameMode : Bool
  nightDamageSelection : Option NightDamageSelection

/-- All cards of a roster, in player order then hand order
(the TS players.flatMap(p => p.cards)). -/
def flatCards (players : List Player) : List Card :=
  (players.map (·.cards)).flatten

inductive WinResult where
  | TOWN_WIN
  | WITCH_WIN
deriving DecidableEq, Repr

/-- checkWinCondition from src/utils/gameLogic.ts. -/
def checkWinCondition (players : List Player) (isSmallGameMode : Bool) :
    Option WinResult :=
  if isSmallGameMode then
    -- Town wins: the single witch card is revealed
    let witchCard := (flatCards players).find? (fun c => c.type == some CardType.WITCH)
    if (witchCard.map (·.isRevealed)).getD false then
      some WinResult.TOWN_WIN
    else
    -- Witches win: any entity is eliminated (all their cards are revealed)
    let anyEliminated := players.any (fun p =>
      decide (0 < p.cards.length) && p.cards.all (·.isRevealed))
    if anyEliminated then
      some WinResult.WITCH_WIN
    else
    -- Witches win: all real players (non-ghosts) are witches
    let realPlayers := players.filter (fun p => !p.isGhost)
    let allRealPlayersAreWitches :=
      decide (0 < realPlayers.length) && realPlayers.all (·.hasRevealedWitch)
    if allRealPlayersAreWitches then some WinResult.WITCH_WIN else none
  else
    let alivePlayers := players.filter (fun p => !p.isDead)
    let activeWitchCards := (flatCards alivePlayers).filter (fun c =>
      c.type == some CardType.WITCH && !c.isRevealed)
    if activeWitchCards.length = 0 then
      some WinResult.TOWN_WIN
    else
    let townTeamAlive := alivePlayers.filter (fun p => !p.hasRevealedWitch)
    if townTeamAlive.length = 0 then some WinResult.WITCH_WIN else none

/-- Mask one card for the public broadcast: an unrevealed card's type
becomes null (src/App.tsx lines 576-579). -/
def maskCard (c : Card) : Card :=
  { c with type := if c.isRevealed then c.type else none }

/-- Mask one player's hand for the public broadcast.  Every field other
than the cards is spread through unchanged. -/
def maskPlayer (p : Player) : Player :=
  { p with cards := p.cards.map maskCard }

/-- The public broadcast view (src/App.tsx lines 573-580): identical to the
authoritative state except each player's cards are masked. -/
def publicState (s : GameState) : GameState :=
  { s with players := s.players.map maskPlayer }

/-- Hand size per player count (getCardsPerPlayer). -/
def getCardsPerPlayer (playerCount : Nat) : Nat :=
  if playerCount ≤ 7 then 5 else if playerCount ≤ 9 then 4 else 3

/-- The fixed distribution table (notAWitch, witch, constable) for
player counts 4-12 (TRYAL_CARD_DISTRIBUTION). -/
def tryalCardDistribution (playerCount : Nat) : Option (Nat × Nat × Nat) :=
  match playerCount with
  | 4  => some (18, 1, 1)
  | 5  => some (23, 1, 1)
  | 6  => some (27, 2, 1)
  | 7  => some (32, 2, 1)
  | 8  => some (29, 2, 1)
  | 9  => some (33, 2, 1)
  | 10 => some (27, 2, 1)
  | 11 => some (30, 2, 1)
  | 12 => some (33, 2, 1)
  | _  => none

/-- The deck's card types before the shuffle (generateDeck without the
final shuffle call; the shuffle only permutes this list). -/
def generateDeckTypes (playerCount : Nat) : List CardType :=
  match tryalCardDistribution playerCount with
  | some (notAWitch, witch, constable) =>
      List.replicate witch CardType.WITCH ++
      List.replicate constable CardType.CONSTABLE ++
      List.replicate notAWitch CardType.NOT_A_WITCH
  | none =>
      let witchCount := if 5 < playerCount then 2 else 1
      let constableCount := 1
      let cardsPerPlayer := getCardsPerPlayer playerCount
      let totalCards := playerCount * cardsPerPlayer
      let townCount := totalCards - witchCount - constableCount
      List.replicate witchCount CardType.WITCH ++
      List.replicate constableCount CardType.CONSTABLE ++
      List.replicate townCount CardType.NOT_A_WITCH

/-- distributeCards from src/utils/gameLogic.ts, with the already shuffled
deck and the random card-id supply passed in explicitly (the source draws
both from Math.random).  Player number j consumes the consecutive deck
positions j*k .. j*k+k-1 via a single running cardIndex; an out-of-range
read is undefined in TS and none here.  The map resets cards and
hasRevealedWitch first; hasRevealedWitch becomes true exactly when a WITCH
card is received. -/
def distributeCardsWith (deckTypes : List CardType) (mkId : Nat → String)
    (players : List Player) : List Player :=
  let k := getCardsPerPlayer players.length
  (players.enum).map (fun ⟨j, p⟩ =>
    let positions := (List.range k).map (fun i => j * k + i)
    { p with
      cards := positions.map (fun pos =>
        { id := mkId pos, type := deckTypes[pos]?, isRevealed := false }),
      hasRevealedWitch := positions.any (fun pos =>
        deckTypes[pos]? == some CardType.WITCH) })

/-- Modelled from the spec: the dealing rule as the spec's words describe
it — round-robin, one card at a time per entity, so that seat i receives
deck positions i, i+N, i+2N, ... .  Used only to compare against the
block-dealing rule the source actually implements. -/
def roundRobinPositions (seatCount seat handSize : Nat) : List Nat :=
  (List.range handSize).map (fun r => seat + r * seatCount)

/-- The sources of randomness (Math.random in the source), supplied as an
explicit environment.  chooseCard and choosePlayer model the idiom
list[Math.floor(Math.random() * list.length)], which the source only
applies to non-empty lists; the two message functions model
getRandomMessage over the corresponding constant message lists. -/
structure Rand where
  shuffleCards : List Card → List Card
  chooseCard : List Card → Option Card
  choosePlayer : List Player → Option Player
  witchFoundMsg : String → String
  allRevealedMsg : String → String
  nightKillMsg : String → String

/-- The closed set of action kinds dispatched by processPlayerAction,
each with its payload fields; OTHER stands for any unrecognized action
string, which falls through the if/else chain unchanged. -/
inductive Action where
  | ACCUSE_START (targetId : String)
  | ACCUSE_ACCEPT
  | ACCUSE_CANCEL
  | ACCUSE_REVEAL (cardId : String)
  | NIGHT_CONFIRM (fakeTargetId : Option String)
  | BLACK_CAT (targetId : String)
  | KILL_VOTE (targetId : String)
  | GUARD_VOTE (targetId : String)
  | GUARD_SKIP
  | SELF_REVEAL (cardId : String)
  | CONFESSION_PASS
  | SHUFFLE_HAND
  | SHUFFLE_GHOST (ghostId : String)
  | NIGHT_DAMAGE_SELECT (cardIds : List String)
  | TRIGGER_CONSPIRACY
  | CONSPIRACY_SELECT (cardId : String)
  | CONSPIRACY_SELECT_FOR_OTHER (forPlayerId : String) (cardId : String)
  | OTHER

/-- How a CardType prints inside a template string (the enum values are
their own names; an unrevealed-masked type prints as null). -/
def octName : Option CardType → String
  | some CardType.NOT_A_WITCH => "NOT_A_WITCH"
  | some CardType.WITCH => "WITCH"
  | some CardType.CONSTABLE => "CONSTABLE"
  | none => "null"

/-- The terminal log entry appended when a side wins. -/
def winMessage : WinResult → String
  | WinResult.TOWN_WIN => "Town Win!"
  | WinResult.WITCH_WIN => "Witches Win!"

/-- Update the first player matching the predicate, leaving the rest
unchanged (the TS code mutates the object returned by players.find). -/
def updateFirstBy (players : List Player) (pred : Player → Bool)
    (f : Player → Player) : List Player :=
  match players with
  | [] => []
  | p :: rest =>
      if pred p then f p :: rest else p :: updateFirstBy rest pred f

/-- Reveal the first card matching the id (the TS code mutates the card
returned by cards.find). -/
def setRevealedFirst (cards : List Card) (cardId : String) : List Card :=
  match cards with
  | [] => []
  | c :: rest =>
      if c.id == cardId then { c with isRevealed := true } :: rest
      else c :: setRevealedFirst rest cardId

/-- nightConfirmations is kept duplicate-free: includes-check then append. -/
def addConfirmation (confirmations : List String) (pid : String) : List String :=
  if confirmations.contains pid then confirmations else confirmations ++ [pid]

/-- The ghost-witch auto-vote loop of the KILL_VOTE / BLACK_CAT branches:
each living ghost witch gets a mirrored vote appended, but only when no
vote of that ghost is present yet. -/
def addGhostVotes (ghostWitches : List Player) (votes : List WitchVote)
    (targetId targetName : String) : List WitchVote :=
  ghostWitches.foldl (fun vs ghost =>
    if vs.any (fun v => v.voterId == ghost.id) then vs
    else vs ++ [⟨ghost.id, ghost.name, targetId, targetName⟩]) votes

structure CardTransfer where
  fromPlayerId : String
  toPlayerId : String
  cardId : String
deriving DecidableEq, Repr

/-- The per-player working copy of the hands during conspiracy resolution
(the TS Map<string, Card[]>; a missing key reads as undefined = none). -/
def CardsMap : Type := String → Option (List Card)

def setEntry (m : CardsMap) (pid : String) (cards : List Card) : CardsMap :=
  fun id => if id == pid then some cards else m id

/-- playerCardsMap initialisation: one Map.set per player in order, so a
duplicated id keeps the last player's cards. -/
def initCardsMap (players : List Player) : CardsMap :=
  players.foldl (fun m p => setEntry m p.id p.cards) (fun _ => none)

/-- splice at the first card matching the id: the removed card and the
remaining list, or none when no card matches (findIndex −1). -/
def removeFirst (cards : List Card) (cardId : String) :
    Option (Card × List Card) :=
  match cards with
  | [] => none
  | c :: rest =>
      if c.id == cardId then some (c, rest)
      else (removeFirst rest cardId).map (fun x => (x.1, c :: x.2))

/-- Execute one conspiracy transfer against the working map, also
collecting the recipients of WITCH cards.  When source and destination
are the same entry, the TS arrays alias, so splice-then-push acts on the
spliced array: hence the destination is read back after the source
update. -/
def execTransfer (acc : CardsMap × List String) (t : CardTransfer) :
    CardsMap × List String :=
  match acc.1 t.fromPlayerId, acc.1 t.toPlayerId with
  | some fromCards, some _ =>
      match removeFirst fromCards t.cardId with
      | some (card, rest) =>
          let m1 := setEntry acc.1 t.fromPlayerId rest
          let toCards := (m1 t.toPlayerId).getD []
          let m2 := setEntry m1 t.toPlayerId (toCards ++ [card])
          (m2, if card.type == some CardType.WITCH then
                 acc.2 ++ [t.toPlayerId] else acc.2)
      | none => acc
  | _, _ => acc

/-- The left-neighbor index used throughout conspiracy resolution:
findIndex over the living entities, then index−1 wrapping to the end
(a not-found −1 also wraps to the end in the source's arithmetic). -/
def leftNeighborIdx (aliveEntities : List Player) (pid : String) : Nat :=
  match aliveEntities.findIdx? (fun p => p.id == pid) with
  | some i => if i = 0 then aliveEntities.length - 1 else i - 1
  | none => aliveEntities.length - 1

/-- Auto-fill a random hidden-card selection for every living ghost from
its left neighbor (the ghost loop of the CONSPIRACY_SELECT branch). -/
def ghostAutoSelect (rand : Rand) (players : List Player)
    (sels : List ConspiracySelection) : List ConspiracySelection :=
  let aliveEntitiesList := players.filter (fun p => !p.isDead)
  let ghosts := aliveEntitiesList.filter (fun p => p.isGhost)
  ghosts.foldl (fun acc ghost =>
    let leftIdx := leftNeighborIdx aliveEntitiesList ghost.id
    let hiddenCards :=
      ((aliveEntitiesList.get? leftIdx).map
        (fun ln => ln.cards.filter (fun c => !c.isRevealed))).getD []
    if 0 < hiddenCards.length then
      match rand.chooseCard hiddenCards with
      | some rc => acc ++ [⟨ghost.id, rc.id⟩]
      | none => acc
    else acc) sels

/-- Turn the complete selection list into transfers: each selection moves
the chosen card from the selector's left living neighbor to the selector;
dead or unknown selectors are skipped. -/
def computeTransfers (players : List Player)
    (sels : List ConspiracySelection) : List CardTransfer :=
  sels.foldl (fun acc selection =>
    match players.find? (fun p => p.id == selection.playerId) with
    | none => acc
    | some receivingPlayer =>
        if receivingPlayer.isDead then acc
        else
          let aliveEntities := players.filter (fun p => !p.isDead)
          match aliveEntities.get? (leftNeighborIdx aliveEntities selection.playerId) with
          | some leftNeighbor =>
              acc ++ [⟨leftNeighbor.id, selection.playerId, selection.selectedCardId⟩]
          | none => acc) []

/-- Conspiracy resolution: ghost auto-selection, transfer computation from
the pre-transfer snapshot, transfer execution, witch-infection marking,
per-recipient reshuffle, and return to DAY. -/
def resolveConspiracy (rand : Rand) (s : GameState) : GameState :=
  let sels := ghostAutoSelect rand s.players s.conspiracySelections
  let transfers := computeTransfers s.players sels
  let result := transfers.foldl execTransfer (initCardsMap s.players, [])
  { s with
    players := s.players.map (fun p =>
      { p with
        cards := rand.shuffleCards ((result.1 p.id).getD p.cards),
        hasRevealedWitch := p.hasRevealedWitch || result.2.contains p.id }),
    logs := s.logs ++ ["Conspiracy complete! Cards have been passed."],
    phase := GamePhase.DAY,
    conspiracySelections := [] }

/-- One CONSPIRACY_SELECT (or _FOR_OTHER) step: replace the selector's
prior selection, then resolve once every living real player has one. -/
def conspiracyStep (rand : Rand) (s : GameState)
    (targetPlayerId cardId : String) : GameState :=
  let sels := (s.conspiracySelections.filter
    (fun x => x.playerId != targetPlayerId)) ++ [⟨targetPlayerId, cardId⟩]
  let s1 := { s with conspiracySelections := sels }
  let aliveRealPlayers := s.players.filter (fun p => !p.isDead && !p.isGhost)
  let allSelected := aliveRealPlayers.all (fun p =>
    sels.any (fun x => x.playerId == p.id))
  if allSelected then resolveConspiracy rand s1 else s1

/-- The if/else dispatch chain of processPlayerAction, before the final
win-condition check (src/logic/actionHandlers.ts). -/
def applyAction (rand : Rand) (s : GameState) (playerId : String)
    (a : Action) : GameState :=
  match a with
  | Action.ACCUSE_START targetId =>
      match s.players.find? (fun p => p.id == playerId),
            s.players.find? (fun p => p.id == targetId) with
      | some accuser, some target =>
          if target.isDead then s
          else
            { s with
              pendingAccusation :=
                some ⟨playerId, accuser.name, targetId, target.name, target.isGhost⟩,
              logs := s.logs ++
                ([accuser.name ++ " accuses " ++ target.name ++ "!"] ++
                 if target.isGhost then ["The ghost cannot object..."] else []) }
      | _, _ => s
  | Action.ACCUSE_ACCEPT =>
      match s.pendingAccusation with
      | some pa =>
          if pa.targetId == playerId then
            { s with pendingAccusation := some { pa with
              accepted := true },
                     logs := s.logs ++ [pa.targetName ++ " accepts the accusation."] }
          else s
      | none => s
  | Action.ACCUSE_CANCEL =>
      match s.pendingAccusation with
      | some pa =>
          { s with
            pendingAccusation := none,
                   logs := s.logs ++
                     ["Accusation against " ++ pa.targetName ++ " was withdrawn."] }
      | none => s
  | Action.ACCUSE_REVEAL cardId =>
      match s.pendingAccusation with
      | some pa =>
          if pa.accepted && pa.accuserId == playerId then
            match s.players.find? (fun p => p.id == pa.targetId) with
            | some targetPlayer =>
                match targetPlayer.cards.find? (fun c => c.id == cardId) with
                | some card =>
                    if card.isRevealed then s
                    else
                      let logs1 := s.logs ++
                        [targetPlayer.name ++ " revealed " ++ octName card.type ++ "!"]
                      if card.type == some CardType.WITCH then
                        { s with
                          players := updateFirstBy s.players (fun p => p.id == pa.targetId)
                            (fun p => { p with
                              isDead := true,
                              cards := p.cards.map (fun c => { c with isRevealed := true }) }),
                          logs := logs1 ++ [rand.witchFoundMsg targetPlayer.name],
                          pendingAccusation := none }
                      else
                        if (setRevealedFirst targetPlayer.cards cardId).all (·.isRevealed) then
                          { s with
                            players := updateFirstBy s.players (fun p => p.id == pa.targetId)
                              (fun p => { p with
                                cards := setRevealedFirst p.cards cardId, isDead := true }),
                            logs := logs1 ++ [rand.allRevealedMsg targetPlayer.name],
                            pendingAccusation := none }
                        else
                          { s with
                            players := updateFirstBy s.players (fun p => p.id == pa.targetId)
                              (fun p => { p with cards := setRevealedFirst p.cards cardId }),
                            logs := logs1,
                            pendingAccusation := none }
                | none => s
            | none => s
          else s
      | none => s
  | Action.NIGHT_CONFIRM fakeTargetId =>
      if s.nightConfirmations.contains playerId then s
      else
        let s1 := { s with nightConfirmations := s.nightConfirmations ++ [playerId] }
        match fakeTargetId with
        | some t =>
            if t == "" then s1
            else { s1 with
              fakeVotes :=
                     fun k => if k == t then s.fakeVotes t + 1 else s.fakeVotes k }
        | none => s1
  | Action.BLACK_CAT targetId =>
      match s.players.find? (fun p => p.id == playerId),
            s.players.find? (fun p => p.id == targetId) with
      | some voter, some target =>
          let vs1 := (s.witchVotes.filter (fun v => v.voterId != playerId)) ++
            [⟨playerId, voter.name, targetId, target.name⟩]
          let ghostWitches := s.players.filter
            (fun p => p.isGhost && p.hasRevealedWitch && !p.isDead)
          { s with
            witchVotes := addGhostVotes ghostWitches vs1 targetId target.name,
            players := s.players.map (fun p => { p with hasBlackCat := p.id == targetId }),
            nightConfirmations := addConfirmation s.nightConfirmations playerId }
      | _, _ => s
  | Action.KILL_VOTE targetId =>
      match s.players.find? (fun p => p.id == playerId),
            s.players.find? (fun p => p.id == targetId) with
      | some voter, some target =>
          let vs1 := (s.witchVotes.filter (fun v => v.voterId != playerId)) ++
            [⟨playerId, voter.name, targetId, target.name⟩]
          let ghostWitches := s.players.filter
            (fun p => p.isGhost && p.hasRevealedWitch && !p.isDead)
          { s with
            witchVotes := addGhostVotes ghostWitches vs1 targetId target.name,
            nightKillTargetId := some targetId,
            nightConfirmations := addConfirmation s.nightConfirmations playerId }
      | _, _ => s
  | Action.GUARD_VOTE targetId =>
      { s with
        constableGuardId := some targetId,
               nightConfirmations := addConfirmation s.nightConfirmations playerId }
  | Action.GUARD_SKIP =>
      { s with
        constableGuardId := some "SKIP",
               nightConfirmations := addConfirmation s.nightConfirmations playerId }
  | Action.SELF_REVEAL cardId =>
      let s1 :=
        match s.players.find? (fun p => p.id == playerId) with
        | some player =>
            if player.cards.any (fun c => c.id == cardId) then
              { s with
                players := updateFirstBy s.players (fun p => p.id == playerId)
                  (fun p => { p with
                    cards := setRevealedFirst p.cards cardId, immune := true }),
                logs := s.logs ++ [player.name ++ " confessed to seek safety."] }
            else s
        | none => s
      { s1 with nightConfirmations := addConfirmation s1.nightConfirmations playerId }
  | Action.CONFESSION_PASS =>
      { s with nightConfirmations := addConfirmation s.nightConfirmations playerId }
  | Action.SHUFFLE_HAND =>
      match s.players.find? (fun p => p.id == playerId) with
      | some _ =>
          { s with
            players :=
              updateFirstBy s.players (fun p => p.id == playerId)
                (fun p =>
                  let hidden := rand.shuffleCards (p.cards.filter (fun c => !c.isRevealed))
                  { p with cards := hidden ++ p.cards.filter (fun c => c.isRevealed) }) }
      | none => s
  | Action.SHUFFLE_GHOST ghostId =>
      match s.players.find? (fun p => p.id == ghostId && p.isGhost) with
      | some _ =>
          { s with
            players :=
              updateFirstBy s.players (fun p => p.id == ghostId && p.isGhost)
                (fun p =>
                  let hidden := rand.shuffleCards (p.cards.filter (fun c => !c.isRevealed))
                  { p with cards := hidden ++ p.cards.filter (fun c => c.isRevealed) }) }
      | none => s
  | Action.NIGHT_DAMAGE_SELECT cardIds =>
      match s.nightDamageSelection with
      | some nds =>
          if nds.chooserId == playerId then
            let targetId := nds.targetId
            let targetName :=
              ((s.players.find? (fun p => p.id == targetId)).map (·.name)).getD "undefined"
            let newPlayers := s.players.map (fun p =>
              if p.id == targetId then
                let newCards := p.cards.map (fun c =>
                  if cardIds.contains c.id then { c with isRevealed := true } else c)
                { p with cards := newCards, isDead := newCards.all (·.isRevealed) }
              else p)
            let updatedTargetDead :=
              ((newPlayers.find? (fun p => p.id == targetId)).map (·.isDead)).getD false
            let logs1 := s.logs ++
              [if updatedTargetDead then
                 targetName ++ " had all their cards revealed and has been eliminated!"
               else
                 targetName ++ " lost " ++ toString cardIds.length ++
                 " card(s) to the night attack."]
            let base := { s with
              players := newPlayers,
                          nightKillTargetId := none, constableGuardId := none,
                          witchVotes := [], nightDamageSelection := none }
            match checkWinCondition newPlayers s.isSmallGameMode with
            | some w =>
                { base with phase := GamePhase.GAME_OVER, logs := logs1 ++ [winMessage w] }
            | none =>
                { base with
                  phase := GamePhase.DAY,
                            turnCounter := s.turnCounter + 1, logs := logs1 }
          else s
      | none => s
  | Action.TRIGGER_CONSPIRACY =>
      { s with
        phase := GamePhase.CONSPIRACY, conspiracySelections := [],
               logs := s.logs ++
                 ["Conspiracy begins! Each player selects a hidden card from their left neighbor."] }
  | Action.CONSPIRACY_SELECT cardId => conspiracyStep rand s playerId cardId
  | Action.CONSPIRACY_SELECT_FOR_OTHER forPlayerId cardId =>
      conspiracyStep rand s forPlayerId cardId
  | Action.OTHER => s

/-- processPlayerAction: the dispatched branch followed by the
unconditional win-condition re-check, which forces GAME_OVER and logs the
winner whenever the incoming state was not already GAME_OVER. -/
def processPlayerAction (rand : Rand) (s : GameState) (playerId : String)
    (a : Action) : GameState :=
  let updates := applyAction rand s playerId a
  match checkWinCondition updates.players updates.isSmallGameMode with
  | some win =>
      if s.phase ≠ GamePhase.GAME_OVER then
        { updates with
          phase := GamePhase.GAME_OVER,
                       logs := updates.logs ++ [winMessage win] }
      else updates
  | none => updates

/-- TS string truthiness of the constable guard field: null and the empty
string are falsy. -/
def guardUnset : Option String → Bool
  | none => true
  | some sid => sid == ""

/-- advancePhase (phase transition module): one step of the host-driven
phase state machine. -/
def advancePhase (rand : Rand) (s : GameState) : GameState :=
  match s.phase with
  | GamePhase.SETUP =>
      let smallBranch :=
        if s.isSmallGameMode then
          let aliveWitches := s.players.filter (fun p => p.hasRevealedWitch && !p.isDead)
          let realWitches := aliveWitches.filter (fun p => !p.isGhost)
          if 0 < aliveWitches.length && realWitches.length = 0 then
            let validTargets := s.players.filter (fun p => !p.isGhost)
            if 0 < validTargets.length then
              (rand.choosePlayer validTargets).map (fun randomTarget =>
                { s with
                  phase := GamePhase.NIGHT_INITIAL_WITCH,
                         players := s.players.map (fun p =>
                           { p with hasBlackCat := p.id == randomTarget.id }),
                         nightConfirmations := [] })
            else none
          else none
        else none
      match smallBranch with
      | some s2 => s2
      | none => { s with phase := GamePhase.NIGHT_INITIAL_WITCH, nightConfirmations := [] }
  | GamePhase.NIGHT_INITIAL_WITCH =>
      { s with
        phase := GamePhase.DAY, turnCounter := s.turnCounter + 1,
               witchVotes := [], nightConfirmations := [] }
  | GamePhase.DAY =>
      let smallBranch :=
        if s.isSmallGameMode then
          let aliveEntities := s.players.filter (fun p => !p.isDead)
          let aliveWitches := aliveEntities.filter (fun p => p.hasRevealedWitch)
          let realWitches := aliveWitches.filter (fun p => !p.isGhost)
          if 0 < aliveWitches.length && realWitches.length = 0 then
            let validTargets := aliveEntities.filter (fun p => !p.isGhost)
            if 0 < validTargets.length then
              (rand.choosePlayer validTargets).map (fun randomTarget =>
                { s with
                  phase := GamePhase.NIGHT_WITCH_VOTE,
                         nightConfirmations := [],
                         nightKillTargetId := some randomTarget.id })
            else none
          else none
        else none
      match smallBranch with
      | some s2 => s2
      | none => { s with phase := GamePhase.NIGHT_WITCH_VOTE, nightConfirmations := [] }
  | GamePhase.NIGHT_WITCH_VOTE =>
      let hasActiveConstable := s.players.any (fun p =>
        !p.isDead && p.cards.any (fun c =>
          c.type == some CardType.CONSTABLE && !c.isRevealed))
      if hasActiveConstable then
        { s with phase := GamePhase.NIGHT_CONSTABLE, nightConfirmations := [] }
      else
        { s with
          phase := GamePhase.NIGHT_CONFESSION,
                 logs := s.logs ++ ["No Constable to protect tonight."],
                 nightConfirmations := [] }
  | GamePhase.NIGHT_CONSTABLE =>
      if guardUnset s.constableGuardId &&
         (s.players.any (fun p => !p.isDead && p.isGhost && p.cards.any (fun c =>
            c.type == some CardType.CONSTABLE && !c.isRevealed))) then
        { s with
          phase := GamePhase.NIGHT_CONFESSION, nightConfirmations := [],
                 constableGuardId := some "SKIP" }
      else
        { s with phase := GamePhase.NIGHT_CONFESSION, nightConfirmations := [] }
  | GamePhase.NIGHT_CONFESSION =>
      { s with
        phase := GamePhase.NIGHT_RESOLUTION,
               logs := s.logs ++ ["Confession period has ended."] }
  | GamePhase.NIGHT_RESOLUTION => s
  | _ => s

/- ----------------------------------------------------------------------
   Derived notions used by the theorems below.
----------------------------------------------------------------------- -/

/-- Erase exactly the hidden-role information of a player: the types of
unrevealed cards and the sticky witch-alignment flag.  Two states with the
same erasure differ only in hidden-role data, so a broadcast that cannot
reveal hidden roles must agree on them. -/
def eraseHiddenRole (p : Player) : Player :=
  { p with hasRevealedWitch := false, cards := p.cards.map maskCard }

/-- The hidden-role-erased projection of a full game state. -/
def stateObservation (s : GameState) : GameState :=
  { s with players := s.players.map eraseHiddenRole }

/-- Two states that agree on everything except participants' hidden-role
data (unrevealed card types, witch-alignment flags). -/
def sameUpToHiddenRoles (s1 s2 : GameState) : Prop :=
  stateObservation s1 = stateObservation s2

/-- One card derived from another by (possibly) revealing it: same id and
role, and revelation is monotone. -/
def cardDerived (c c' : Card) : Prop :=
  c'.id = c.id ∧ c'.type = c.type ∧ (c.isRevealed = true → c'.isRevealed = true)

/-- One player derived from another by revealing additional cards or dying:
every other field is unchanged. -/
def playerDerived (p p' : Player) : Prop :=
  p'.id = p.id ∧ p'.name = p.name ∧ p'.peerId = p.peerId ∧
  p'.isHost = p.isHost ∧ p'.hasBlackCat = p.hasBlackCat ∧
  p'.hasRevealedWitch = p.hasRevealedWitch ∧ p'.immune = p.immune ∧
  p'.isDisconnected = p.isDisconnected ∧ p'.isGhost = p.isGhost ∧
  (p.isDead = true → p'.isDead = true) ∧
  List.Forall₂ cardDerived p.cards p'.cards

/-- A roster derived from another by revealing additional cards or marking
additional players dead. -/
def rosterDerived (ps ps' : List Player) : Prop :=
  List.Forall₂ playerDerived ps ps'

/- ----------------------------------------------------------------------
   Concrete fixtures for counterexamples and witnesses.
----------------------------------------------------------------------- -/

/-- A concrete random environment for closed statements: the identity
shuffle (a permutation) and first-element choices. -/
def trivialRand : Rand :=
  ⟨fun l => l, fun l => l.head?, fun l => l.head?,
   fun n => n ++ " is revealed as a witch!",
   fun n => n ++ " has no cards left!",
   fun n => n ++ " was taken by the night!"⟩

def basePlayer (i : String) : Player :=
  ⟨i, "N" ++ i, "", false, false, false, [], false, false, false, false⟩

def baseState (ps : List Player) : GameState :=
  ⟨"room", GamePhase.DAY, ps, [], none, none, 0, [], none, [], [],
   fun _ => 0, false, none⟩

/-- C1 fixture: a player holding one unrevealed WITCH card (witch-aligned). -/
def c1Witch : Player :=
  { basePlayer "p1" with
    cards := [⟨"h1", some CardType.WITCH, false⟩], hasRevealedWitch := true }

/-- C1 fixture: the same seat holding one unrevealed town card instead. -/
def c1Town : Player :=
  { basePlayer "p1" with
    cards := [⟨"h1", some CardType.NOT_A_WITCH, false⟩], hasRevealedWitch := false }

def c1Observer : Player := basePlayer "p2"

def c1s1 : GameState := baseState [c1Witch, c1Observer]

def c1s2 : GameState := baseState [c1Town, c1Observer]

/-- C2 fixture: a lone living witch-aligned player with an unrevealed
WITCH card. -/
def c2Before : Player :=
  { basePlayer "q" with
    cards := [⟨"k1", some CardType.WITCH, false⟩], hasRevealedWitch := true }

/-- C2 fixture: the same player after the WITCH card is revealed. -/
def c2After : Player :=
  { basePlayer "q" with
    cards := [⟨"k1", some CardType.WITCH, true⟩], hasRevealedWitch := true }

/-- C3 fixture: a dead real (non-ghost) player who is not witch-aligned. -/
def c3DeadTown : Player :=
  { basePlayer "d" with
    isDead := true, cards := [⟨"d1", some CardType.NOT_A_WITCH, false⟩] }

/-- C3 fixture: a living real witch-aligned player holding the unrevealed
WITCH card. -/
def c3LiveWitch : Player :=
  { basePlayer "w" with
    cards := [⟨"w1", some CardType.WITCH, false⟩], hasRevealedWitch := true }

/-- C4 fixture: a living caller owning a single unrevealed WITCH card,
with a second player so the roster is not a trivial one. -/
def c4Caller : Player :=
  { basePlayer "u" with cards := [⟨"u1", some CardType.WITCH, false⟩] }

def c4State : GameState :=
  { baseState [c4Caller,
      { basePlayer "z" with cards := [⟨"z1", some CardType.NOT_A_WITCH, false⟩] }] with
    phase := GamePhase.NIGHT_CONFESSION }

/-- C5 fixture: two seats and a fixed post-shuffle ten-card deck whose
WITCH sits at position 1. -/
def c5Players : List Player := [basePlayer "x", basePlayer "y"]

def c5Deck : List CardType :=
  [CardType.NOT_A_WITCH, CardType.WITCH, CardType.NOT_A_WITCH,
   CardType.NOT_A_WITCH, CardType.NOT_A_WITCH, CardType.NOT_A_WITCH,
   CardType.NOT_A_WITCH, CardType.NOT_A_WITCH, CardType.CONSTABLE,
   CardType.NOT_A_WITCH]

def c5MkId (n : Nat) : String := "card" ++ toString n

/-- C6 fixture: a real witch voter, a living ghost witch, two targets. -/
def c6Voter : Player :=
  { basePlayer "v" with
    cards := [⟨"v1", some CardType.WITCH, false⟩], hasRevealedWitch := true }

def c6Ghost : Player :=
  { basePlayer "g" with
    isGhost := true, hasRevealedWitch := true,
    cards := [⟨"g1", some CardType.NOT_A_WITCH, false⟩] }

def c6State : GameState :=
  { baseState [c6Voter, c6Ghost, basePlayer "a", basePlayer "b"] with
    phase := GamePhase.NIGHT_WITCH_VOTE, isSmallGameMode := true }

/-- C6: the state after the same witch voter casts KILL_VOTE twice, first
for target a and then for target b. -/
def c6DoubleVote : GameState :=
  processPlayerAction trivialRand
    (processPlayerAction trivialRand c6State "v" (Action.KILL_VOTE "a"))
    "v" (Action.KILL_VOTE "b")

/-- C7 witness fixture: four living real players, two cards each. -/
def c7A : Player :=
  { basePlayer "a" with
    cards := [⟨"a1", some CardType.NOT_A_WITCH, false⟩, ⟨"a2", some CardType.WITCH, false⟩] }

def c7B : Player :=
  { basePlayer "b" with
    cards := [⟨"b1", some CardType.NOT_A_WITCH, false⟩, ⟨"b2", some CardType.NOT_A_WITCH, false⟩] }

def c7C : Player :=
  { basePlayer "c" with
    cards := [⟨"c1", some CardType.CONSTABLE, false⟩, ⟨"c2", some CardType.NOT_A_WITCH, false⟩] }

def c7D : Player :=
  { basePlayer "d" with
    cards := [⟨"d1", some CardType.NOT_A_WITCH, false⟩, ⟨"d2", some CardType.NOT_A_WITCH, false⟩] }

def c7State : GameState :=
  { baseState [c7A, c7B, c7C, c7D] with
    phase := GamePhase.CONSPIRACY,
    conspiracySelections := [⟨"b", "a2"⟩, ⟨"c", "b1"⟩, ⟨"d", "c2"⟩] }

/-- C8 witness fixture: a living player holding an unrevealed CONSTABLE. -/
def c8State : GameState :=
  { baseState [{ basePlayer "p" with
      cards := [⟨"p1", some CardType.CONSTABLE, false⟩] }] with
    phase := GamePhase.NIGHT_WITCH_VOTE }

/-- C10 witness fixture: two players with empty hands, standard mode. -/
def c10State : GameState := baseState [basePlayer "a", basePlayer "b"]

/-- C4 witness fixture: a caller owning one town card. -/
def c4bPlayer : Player :=
  { basePlayer "m" with cards := [⟨"m1", some CardType.NOT_A_WITCH, false⟩] }

def c4bState : GameState :=
  { baseState [c4bPlayer] with phase := GamePhase.NIGHT_CONFESSION }

/- ----------------------------------------------------------------------
   General lemmas about the win-check wrapper of processPlayerAction.
----------------------------------------------------------------------- -/

theorem processPlayerAction_eq_or (rand : Rand) (s : GameState)
    (pid : String) (a : Action) :
    processPlayerAction rand s pid a = applyAction rand s pid a ∨
    ∃ w, checkWinCondition (applyAction rand s pid a).players
           (applyAction rand s pid a).isSmallGameMode = some w ∧
      processPlayerAction rand s pid a =
        { applyAction rand s pid a with
          phase := GamePhase.GAME_OVER,
          logs := (applyAction rand s pid a).logs ++ [winMessage w] } := by
  cases h : checkWinCondition (applyAction rand s pid a).players
      (applyAction rand s pid a).isSmallGameMode with
  | none =>
      left
      simp only [processPlayerAction]
      rw [h]
  | some w =>
      by_cases hp : s.phase = GamePhase.GAME_OVER
      · left
        simp only [processPlayerAction]
        rw [h]
        simp [hp]
      · refine Or.inr ⟨w, ?_, ?_⟩
        · rfl
        · simp only [processPlayerAction]
          rw [h]
          simp [hp]

theorem process_players_eq (rand : Rand) (s : GameState) (pid : String)
    (a : Action) :
    (processPlayerAction rand s pid a).players =
      (applyAction rand s pid a).players := by
  rcases processPlayerAction_eq_or rand s pid a with h | ⟨w, _, h⟩ <;> rw [h]

theorem process_witchVotes_eq (rand : Rand) (s : GameState) (pid : String)
    (a : Action) :
    (processPlayerAction rand s pid a).witchVotes =
      (applyAction rand s pid a).witchVotes := by
  rcases processPlayerAction_eq_or rand s pid a with h | ⟨w, _, h⟩ <;> rw [h]

theorem process_nightKillTargetId_eq (rand : Rand) (s : GameState)
    (pid : String) (a : Action) :
    (processPlayerAction rand s pid a).nightKillTargetId =
      (applyAction rand s pid a).nightKillTargetId := by
  rcases processPlayerAction_eq_or rand s pid a with h | ⟨w, _, h⟩ <;> rw [h]

theorem process_nightConfirmations_eq (rand : Rand) (s : GameState)
    (pid : String) (a : Action) :
    (processPlayerAction rand s pid a).nightConfirmations =
      (applyAction rand s pid a).nightConfirmations := by
  rcases processPlayerAction_eq_or rand s pid a with h | ⟨w, _, h⟩ <;> rw [h]

theorem process_fakeVotes_eq (rand : Rand) (s : GameState) (pid : String)
    (a : Action) :
    (processPlayerAction rand s pid a).fakeVotes =
      (applyAction rand s pid a).fakeVotes := by
  rcases processPlayerAction_eq_or rand s pid a with h | ⟨w, _, h⟩ <;> rw [h]

theorem process_smallMode_eq (rand : Rand) (s : GameState) (pid : String)
    (a : Action) :
    (processPlayerAction rand s pid a).isSmallGameMode =
      (applyAction rand s pid a).isSmallGameMode := by
  rcases processPlayerAction_eq_or rand s pid a with h | ⟨w, _, h⟩ <;> rw [h]

/- ----------------------------------------------------------------------
   C9: NIGHT_CONFIRM is idempotent per entity.
----------------------------------------------------------------------- -/

theorem applyAction_nightConfirm_of_mem (rand : Rand) (s : GameState)
    (pid : String) (ft : Option String)
    (h : pid ∈ s.nightConfirmations) :
    applyAction rand s pid (Action.NIGHT_CONFIRM ft) = s := by
  unfold applyAction
  simp [h]

theorem nightConfirm_mem_after (rand : Rand) (s : GameState) (pid : String)
    (ft : Option String) :
    pid ∈ (applyAction rand s pid (Action.NIGHT_CONFIRM ft)).nightConfirmations := by
  unfold applyAction
  by_cases h : pid ∈ s.nightConfirmations
  · simp [h]
  · cases ft with
    | none => simp [h]
    | some t =>
        by_cases ht : t = ""
        · simp [h, ht]
        · simp [h, ht]

/-- C9: processing a second NIGHT_CONFIRM from the same entity yields the
same nightConfirmations set and the same fake-vote tally as processing it
once: the duplicate neither grows the confirmation set nor increments the
tally again. -/
theorem nightConfirm_idempotent (rand : Rand) (s : GameState) (pid : String)
    (ft : Option String) :
    (processPlayerAction rand (processPlayerAction rand s pid (Action.NIGHT_CONFIRM ft))
        pid (Action.NIGHT_CONFIRM ft)).nightConfirmations =
      (processPlayerAction rand s pid (Action.NIGHT_CONFIRM ft)).nightConfirmations ∧
    (processPlayerAction rand (processPlayerAction rand s pid (Action.NIGHT_CONFIRM ft))
        pid (Action.NIGHT_CONFIRM ft)).fakeVotes =
      (processPlayerAction rand s pid (Action.NIGHT_CONFIRM ft)).fakeVotes := by
  have hs1 := process_nightConfirmations_eq rand s pid (Action.NIGHT_CONFIRM ft)
  have hmem : pid ∈ (processPlayerAction rand s pid
      (Action.NIGHT_CONFIRM ft)).nightConfirmations := by
    rw [hs1]; exact nightConfirm_mem_after rand s pid ft
  have h2 := applyAction_nightConfirm_of_mem rand
    (processPlayerAction rand s pid (Action.NIGHT_CONFIRM ft)) pid ft hmem
  constructor
  · rw [process_nightConfirmations_eq, h2]
  · rw [process_fakeVotes_eq, h2]

/- ----------------------------------------------------------------------
   C8: advancePhase from NIGHT_WITCH_VOTE.
----------------------------------------------------------------------- -/

theorem hasActiveConstable_iff (ps : List Player) :
    (ps.any (fun p => !p.isDead && p.cards.any (fun c =>
        c.type == some CardType.CONSTABLE && !c.isRevealed)) = true) ↔
    ∃ p ∈ ps, p.isDead = false ∧ ∃ c ∈ p.cards,
      c.type = some CardType.CONSTABLE ∧ c.isRevealed = false := by
  simp [List.any_eq_true, Bool.and_eq_true, Bool.not_eq_true']

/-- C8: from NIGHT_WITCH_VOTE, advancePhase moves to NIGHT_CONSTABLE iff
some living entity holds an unrevealed CONSTABLE card; otherwise it moves
to NIGHT_CONFESSION appending the log entry "No Constable to protect
tonight."; in both cases the night-confirmation set is cleared. -/
theorem advancePhase_nightWitchVote (rand : Rand) (s : GameState)
    (h : s.phase = GamePhase.NIGHT_WITCH_VOTE) :
    (advancePhase rand s).nightConfirmations = [] ∧
    ((∃ p ∈ s.players, p.isDead = false ∧ ∃ c ∈ p.cards,
        c.type = some CardType.CONSTABLE ∧ c.isRevealed = false) →
      (advancePhase rand s).phase = GamePhase.NIGHT_CONSTABLE ∧
      (advancePhase rand s).logs = s.logs) ∧
    (¬ (∃ p ∈ s.players, p.isDead = false ∧ ∃ c ∈ p.cards,
        c.type = some CardType.CONSTABLE ∧ c.isRevealed = false) →
      (advancePhase rand s).phase = GamePhase.NIGHT_CONFESSION ∧
      (advancePhase rand s).logs = s.logs ++ ["No Constable to protect tonight."]) := by
  have e : advancePhase rand s =
      (if s.players.any (fun p => !p.isDead && p.cards.any (fun c =>
          c.type == some CardType.CONSTABLE && !c.isRevealed)) then
        { s with phase := GamePhase.NIGHT_CONSTABLE, nightConfirmations := [] }
      else
        { s with phase := GamePhase.NIGHT_CONFESSION,
                 logs := s.logs ++ ["No Constable to protect tonight."],
                 nightConfirmations := [] }) := by
    unfold advancePhase
    rw [h]
  by_cases hc : s.players.any (fun p => !p.isDead && p.cards.any (fun c =>
      c.type == some CardType.CONSTABLE && !c.isRevealed)) = true
  · rw [e, if_pos hc]
    refine ⟨rfl, fun _ => ⟨rfl, rfl⟩, fun hn => absurd ?_ hn⟩
    exact (hasActiveConstable_iff s.players).mp hc
  · rw [e, if_neg hc]
    refine ⟨rfl, fun hx => absurd ((hasActiveConstable_iff s.players).mpr hx) hc,
      fun _ => ⟨rfl, rfl⟩⟩

/-- C8 witness: a concrete state in NIGHT_WITCH_VOTE whose single living
player holds an unrevealed CONSTABLE card. -/
theorem advancePhase_nightWitchVote_witness :
    c8State.phase = GamePhase.NIGHT_WITCH_VOTE ∧
    (advancePhase trivialRand c8State).phase = GamePhase.NIGHT_CONSTABLE := by
  refine ⟨rfl, ?_⟩
  have h := advancePhase_nightWitchVote trivialRand c8State rfl
  exact (h.2.1 (by decide)).1

/- ----------------------------------------------------------------------
   C4: SELF_REVEAL.
----------------------------------------------------------------------- -/

/-- C4 counterexample: a living caller names their own unrevealed WITCH
card.  The claim says the hand and immunity must stay unchanged; the code
reveals the WITCH card and grants immunity anyway. -/
theorem selfReveal_witch_counterexample :
    ((c4State.players.find? (fun p => p.id == "u")).map
        (fun p => (p.isDead, p.immune, p.cards))) =
      some (false, false, [⟨"u1", some CardType.WITCH, false⟩]) ∧
    (((processPlayerAction trivialRand c4State "u"
        (Action.SELF_REVEAL "u1")).players.find? (fun p => p.id == "u")).map
        (fun p => (p.immune, p.cards))) =
      some (true, [⟨"u1", some CardType.WITCH, true⟩]) := by
  exact ⟨rfl, rfl⟩

theorem find?_updateFirstBy (l : List Player) (pred : Player → Bool)
    (f : Player → Player) (hf : ∀ p, pred p = true → pred (f p) = true) :
    (updateFirstBy l pred f).find? pred = (l.find? pred).map f := by
  induction l with
  | nil => rfl
  | cons p rest ih =>
      by_cases hp : pred p = true
      · rw [updateFirstBy, if_pos hp]
        rw [List.find?_cons_of_pos _ (hf p hp), List.find?_cons_of_pos _ hp]
        rfl
      · rw [updateFirstBy, if_neg hp]
        rw [List.find?_cons_of_neg _ (by simpa using hp),
            List.find?_cons_of_neg _ (by simpa using hp)]
        exact ih

/-- C4 as the code has it: SELF_REVEAL applies whenever the caller is found
and owns a card with the given id — there is no aliveness check, no
reveal-status check and no non-WITCH check.  It marks that card revealed
(a no-op on an already revealed card), grants immunity for the night, and
always records the caller's night confirmation. -/
theorem selfReveal_no_validation (rand : Rand) (s : GameState)
    (pid cid : String) (player : Player)
    (hfind : s.players.find? (fun p => p.id == pid) = some player)
    (hcard : player.cards.any (fun c => c.id == cid) = true) :
    ((processPlayerAction rand s pid (Action.SELF_REVEAL cid)).players.find?
        (fun p => p.id == pid)) =
      some { player with
             cards := setRevealedFirst player.cards cid,
             immune := true } ∧
    (processPlayerAction rand s pid (Action.SELF_REVEAL cid)).nightConfirmations =
      addConfirmation s.nightConfirmations pid := by
  rw [process_players_eq, process_nightConfirmations_eq]
  have e : applyAction rand s pid (Action.SELF_REVEAL cid) =
      { s with
        players := updateFirstBy s.players (fun p => p.id == pid)
          (fun p => { p with cards := setRevealedFirst p.cards cid, immune := true }),
        logs := s.logs ++ [player.name ++ " confessed to seek safety."],
        nightConfirmations := addConfirmation s.nightConfirmations pid } := by
    unfold applyAction
    rw [hfind]
    simp only [hcard, if_true]
  constructor
  · simp only [e]
    rw [find?_updateFirstBy s.players (fun p => p.id == pid)
      (fun p => { p with cards := setRevealedFirst p.cards cid, immune := true })
      (fun p hp => hp)]
    rw [hfind]
    rfl
  · simp only [e]

/-- C4 witness: a concrete caller owning one unrevealed town card. -/
theorem selfReveal_no_validation_witness :
    ((processPlayerAction trivialRand c4bState "m"
        (Action.SELF_REVEAL "m1")).players.find? (fun p => p.id == "m")) =
      some { c4bPlayer with
             cards := setRevealedFirst c4bPlayer.cards "m1",
             immune := true } ∧
    (processPlayerAction trivialRand c4bState "m"
        (Action.SELF_REVEAL "m1")).nightConfirmations =
      addConfirmation c4bState.nightConfirmations "m" := by
  exact selfReveal_no_validation trivialRand c4bState "m" "m1" c4bPlayer rfl rfl

/- ----------------------------------------------------------------------
   C5: dealing is block-wise, not round-robin.
----------------------------------------------------------------------- -/

/-- C5 counterexample: with two seats and a fixed post-shuffle deck whose
only WITCH is at position 1, the code deals the WITCH into seat 0's hand
(consecutive positions 0-4), while the round-robin rule of the claim
assigns seat 0 the positions 0,2,4,6,8 — none of which holds a WITCH. -/
theorem distributeCards_roundRobin_counterexample :
    ((distributeCardsWith c5Deck c5MkId c5Players).get? 0).map
        (fun p => (p.hasRevealedWitch, p.cards.map (·.type))) =
      some (true, [some CardType.NOT_A_WITCH, some CardType.WITCH,
        some CardType.NOT_A_WITCH, some CardType.NOT_A_WITCH,
        some CardType.NOT_A_WITCH]) ∧
    (roundRobinPositions c5Players.length 0
        (getCardsPerPlayer c5Players.length)).map (fun pos => c5Deck.get? pos) =
      [some CardType.NOT_A_WITCH, some CardType.NOT_A_WITCH,
       some CardType.NOT_A_WITCH, some CardType.NOT_A_WITCH,
       some CardType.CONSTABLE] := by
  exact ⟨rfl, rfl⟩

theorem anyOverMap {α β : Type} (f : α → β) (l : List α) (p : β → Bool) :
    (l.map f).any p = l.any (fun a => p (f a)) := by
  induction l with
  | nil => rfl
  | cons a l ih => simp [List.any_cons, ih]

theorem anyCongr {α : Type} (l : List α) (p q : α → Bool)
    (h : ∀ a ∈ l, p a = q a) : l.any p = l.any q := by
  induction l with
  | nil => rfl
  | cons a l ih =>
      simp only [List.any_cons, h a (List.mem_cons_self a l)]
      rw [ih (fun b hb => h b (List.mem_cons_of_mem a hb))]

theorem block_getElem_eq (dt : List CardType) (m k : Nat) (h : m + k ≤ dt.length) :
    (List.range k).map (fun i => dt[m + i]?) = ((dt.drop m).take k).map some := by
  refine List.ext_getElem? (fun i => ?_)
  rw [List.getElem?_map, List.getElem?_map]
  by_cases hi : i < k
  · rw [List.getElem?_range hi]
    rw [List.getElem?_take_of_lt hi, List.getElem?_drop]
    have hlt : m + i < dt.length := by omega
    simp [List.getElem?_eq_getElem hlt]
  · have h1 : (List.range k)[i]? = none := by
      rw [List.getElem?_eq_none_iff]
      simpa using Nat.le_of_not_lt hi
    have h2 : ((dt.drop m).take k)[i]? = none := by
      rw [List.getElem?_eq_none_iff]
      have hle : ((dt.drop m).take k).length ≤ k := by
        simp [List.length_take]
      omega
    rw [h1, h2]
    rfl

/-- C5 as the code has it: dealing is block-wise, one consecutive run of
positions per seat.  Seat j receives exactly deck positions
j*k .. j*k+k-1 (k the per-player allotment), in order, all unrevealed,
and its hasEverHeldWitchCard flag is set exactly when that block contains
a WITCH card. -/
theorem distributeCards_block_deal (deckTypes : List CardType)
    (mkId : Nat → String) (players : List Player) (j : Nat)
    (hj : j < players.length)
    (hlen : players.length * getCardsPerPlayer players.length ≤ deckTypes.length) :
    (distributeCardsWith deckTypes mkId players).length = players.length ∧
    ((distributeCardsWith deckTypes mkId players)[j]?).map
        (fun p => p.cards.map (·.type)) =
      some ((((deckTypes.drop (j * getCardsPerPlayer players.length)).take
        (getCardsPerPlayer players.length))).map some) ∧
    ((distributeCardsWith deckTypes mkId players)[j]?).map
        (fun p => p.cards.length) = some (getCardsPerPlayer players.length) ∧
    ((distributeCardsWith deckTypes mkId players)[j]?).map
        (fun p => p.cards.all (fun c => !c.isRevealed)) = some true ∧
    ((distributeCardsWith deckTypes mkId players)[j]?).map
        (fun p => p.hasRevealedWitch) =
      some (((deckTypes.drop (j * getCardsPerPlayer players.length)).take
        (getCardsPerPlayer players.length)).any
          (fun t => t == CardType.WITCH)) := by
  have hjk : j * getCardsPerPlayer players.length + getCardsPerPlayer players.length
      ≤ deckTypes.length := by
    have h1 : (j + 1) * getCardsPerPlayer players.length
        ≤ players.length * getCardsPerPlayer players.length :=
      Nat.mul_le_mul_right (getCardsPerPlayer players.length) (by omega)
    have h2 : j * getCardsPerPlayer players.length + getCardsPerPlayer players.length
        = (j + 1) * getCardsPerPlayer players.length := by ring
    omega
  have hblock := block_getElem_eq deckTypes
    (j * getCardsPerPlayer players.length) (getCardsPerPlayer players.length) hjk
  have hp : players[j]? = some players[j] := List.getElem?_eq_getElem hj
  have main : (distributeCardsWith deckTypes mkId players)[j]? =
      some { players[j] with
             cards := ((List.range (getCardsPerPlayer players.length)).map
               (fun i => j * getCardsPerPlayer players.length + i)).map
                 (fun pos => ⟨mkId pos, deckTypes[pos]?, false⟩),
             hasRevealedWitch := ((List.range (getCardsPerPlayer players.length)).map
               (fun i => j * getCardsPerPlayer players.length + i)).any
                 (fun pos => deckTypes[pos]? == some CardType.WITCH) } := by
    simp only [distributeCardsWith]
    rw [List.getElem?_map, List.getElem?_enum, hp]
    rfl
  have hmm : ((List.range (getCardsPerPlayer players.length)).map
      (fun i => j * getCardsPerPlayer players.length + i)).map
        (fun pos => deckTypes[pos]?) =
      ((deckTypes.drop (j * getCardsPerPlayer players.length)).take
        (getCardsPerPlayer players.length)).map some := by
    rw [List.map_map]
    exact hblock
  refine ⟨?_, ?_, ?_, ?_, ?_⟩
  · simp [distributeCardsWith]
  · rw [main]
    simp only [Option.map_some']
    congr 1
    rw [List.map_map]
    exact hmm
  · rw [main]
    simp [List.length_map, List.length_range]
  · rw [main]
    simp [List.all_map]
  · rw [main]
    simp only [Option.map_some']
    congr 1
    calc ((List.range (getCardsPerPlayer players.length)).map
          (fun i => j * getCardsPerPlayer players.length + i)).any
            (fun pos => deckTypes[pos]? == some CardType.WITCH)
        = (((List.range (getCardsPerPlayer players.length)).map
            (fun i => j * getCardsPerPlayer players.length + i)).map
              (fun pos => deckTypes[pos]?)).any
            (fun o => o == some CardType.WITCH) := by
          rw [anyOverMap, anyOverMap, anyOverMap]
      _ = (((deckTypes.drop (j * getCardsPerPlayer players.length)).take
            (getCardsPerPlayer players.length)).map some).any
            (fun o => o == some CardType.WITCH) := by
          rw [hmm]
      _ = ((deckTypes.drop (j * getCardsPerPlayer players.length)).take
            (getCardsPerPlayer players.length)).any
            (fun t => t == CardType.WITCH) := by
          rw [anyOverMap]
          exact anyCongr _ _ _ (fun t _ => by cases t <;> rfl)

/-- C5 witness: the block-deal characterization applied to the concrete
two-seat ten-card fixture. -/
theorem distributeCards_block_deal_witness :
    (0 < c5Players.length ∧
     c5Players.length * getCardsPerPlayer c5Players.length ≤ c5Deck.length) ∧
    (distributeCardsWith c5Deck c5MkId c5Players).length = c5Players.length :=
  ⟨⟨by decide, by decide⟩,
   (distributeCards_block_deal c5Deck c5MkId c5Players 0 (by decide) (by decide)).1⟩

/- ----------------------------------------------------------------------
   C3: the small-game WITCH-side win condition.
----------------------------------------------------------------------- -/

/-- C3 counterexample: in small-game mode with a dead real town player and
a living real witch, every LIVING non-ghost entity is witch-aligned (and
some living non-ghost exists, no hand is fully revealed, the witch card is
hidden), yet checkWinCondition returns none — the dead real player blocks
the all-witches condition because the code never filters by isDead. -/
theorem smallMode_dead_players_counterexample :
    checkWinCondition [c3DeadTown, c3LiveWitch] true = none ∧
    (∀ p ∈ [c3DeadTown, c3LiveWitch], p.isGhost = false → p.isDead = false →
      p.hasRevealedWitch = true) ∧
    (∃ p ∈ [c3DeadTown, c3LiveWitch], p.isGhost = false ∧ p.isDead = false) ∧
    (¬ ∃ p ∈ [c3DeadTown, c3LiveWitch], p.cards ≠ [] ∧
      ∀ c ∈ p.cards, c.isRevealed = true) := by
  refine ⟨rfl, by decide, by decide, by decide⟩

theorem small_town_cond_iff (ps : List Player) :
    (((((flatCards ps).find? (fun c => c.type == some CardType.WITCH)).map
        (·.isRevealed)).getD false) = true) ↔
      ∃ c, (flatCards ps).find? (fun c => c.type == some CardType.WITCH) = some c ∧
        c.isRevealed = true := by
  cases hf : (flatCards ps).find? (fun c => c.type == some CardType.WITCH) with
  | none => simp
  | some c => simp

theorem small_elim_cond_iff (ps : List Player) :
    (ps.any (fun p => decide (0 < p.cards.length) && p.cards.all (·.isRevealed)) = true) ↔
      ∃ p ∈ ps, p.cards ≠ [] ∧ ∀ c ∈ p.cards, c.isRevealed = true := by
  simp [List.any_eq_true, Bool.and_eq_true, List.all_eq_true, List.length_pos]

theorem small_allreal_cond_iff (ps : List Player) :
    ((decide (0 < (ps.filter (fun p => !p.isGhost)).length) &&
        (ps.filter (fun p => !p.isGhost)).all (·.hasRevealedWitch)) = true) ↔
      ((∃ p ∈ ps, p.isGhost = false) ∧
        ∀ p ∈ ps, p.isGhost = false → p.hasRevealedWitch = true) := by
  rw [Bool.and_eq_true, decide_eq_true_eq, List.all_eq_true]
  constructor
  · intro h
    obtain ⟨hpos, hall⟩ := h
    constructor
    · obtain ⟨p, hp⟩ := List.exists_mem_of_length_pos hpos
      have hm := List.mem_filter.mp hp
      exact ⟨p, hm.1, by simpa using hm.2⟩
    · intro p hp hg
      have hm : p ∈ ps.filter (fun p => !p.isGhost) :=
        List.mem_filter.mpr ⟨hp, by simp [hg]⟩
      simpa using hall _ hm
  · intro h
    obtain ⟨⟨p, hp, hg⟩, hall⟩ := h
    have hm : p ∈ ps.filter (fun p => !p.isGhost) :=
      List.mem_filter.mpr ⟨hp, by simp [hg]⟩
    constructor
    · exact List.length_pos.mpr (List.ne_nil_of_mem hm)
    · intro q hq
      have h2 := List.mem_filter.mp hq
      simpa using hall q h2.1 (by simpa using h2.2)

/-- C3 as the code has it: in small-game mode, checkWinCondition returns a
WITCH-side win exactly when the first WITCH card (in roster-then-hand
order) is not revealed, and either some entity with a non-empty hand has
its entire hand revealed, or there is at least one non-ghost entity and
every non-ghost entity — dead or alive — is witch-aligned.  Dead non-ghost
entities DO count toward the all-witch-aligned condition. -/
theorem checkWinCondition_small_witchWin_iff (players : List Player) :
    checkWinCondition players true = some WinResult.WITCH_WIN ↔
      (¬ ∃ c, (flatCards players).find? (fun c => c.type == some CardType.WITCH) = some c
            ∧ c.isRevealed = true) ∧
      ((∃ p ∈ players, p.cards ≠ [] ∧ ∀ c ∈ p.cards, c.isRevealed = true) ∨
       ((∃ p ∈ players, p.isGhost = false) ∧
        ∀ p ∈ players, p.isGhost = false → p.hasRevealedWitch = true)) := by
  unfold checkWinCondition
  simp only [if_true]
  split_ifs with h1 h2 h3
  · constructor
    · intro h
      exact absurd h (by simp)
    · intro h
      exact absurd ((small_town_cond_iff players).mp h1) h.1
  · have hnotown : ¬ ∃ c, (flatCards players).find?
        (fun c => c.type == some CardType.WITCH) = some c ∧ c.isRevealed = true :=
      fun hc => h1 ((small_town_cond_iff players).mpr hc)
    constructor
    · intro _
      exact ⟨hnotown, Or.inl ((small_elim_cond_iff players).mp h2)⟩
    · intro _
      rfl
  · have hnotown : ¬ ∃ c, (flatCards players).find?
        (fun c => c.type == some CardType.WITCH) = some c ∧ c.isRevealed = true :=
      fun hc => h1 ((small_town_cond_iff players).mpr hc)
    constructor
    · intro _
      exact ⟨hnotown, Or.inr ((small_allreal_cond_iff players).mp h3)⟩
    · intro _
      rfl
  · constructor
    · intro h
      exact absurd h (by simp)
    · intro h
      rcases h.2 with he | ha
      · exact absurd ((small_elim_cond_iff players).mpr he) h2
      · exact absurd ((small_allreal_cond_iff players).mpr ha) h3

/- ----------------------------------------------------------------------
   C6: KILL_VOTE vote replacement and ghost mirroring.
----------------------------------------------------------------------- -/

theorem addGhostVotes_cons (g : Player) (rest : List Player)
    (votes : List WitchVote) (tid tn : String) :
    addGhostVotes (g :: rest) votes tid tn =
      addGhostVotes rest
        (if votes.any (fun v => v.voterId == g.id) then votes
         else votes ++ [⟨g.id, g.name, tid, tn⟩]) tid tn := rfl

theorem filter_voterId_addGhostVotes_of_forall (ghosts : List Player)
    (votes : List WitchVote) (tid tn x : String)
    (hx : ∀ g ∈ ghosts, g.id ≠ x) :
    (addGhostVotes ghosts votes tid tn).filter (fun v => v.voterId == x) =
      votes.filter (fun v => v.voterId == x) := by
  induction ghosts generalizing votes with
  | nil => rfl
  | cons g rest ih =>
      rw [addGhostVotes_cons]
      have hgx : g.id ≠ x := hx g (List.mem_cons_self g rest)
      by_cases hg : votes.any (fun v => v.voterId == g.id) = true
      · rw [if_pos hg]
        exact ih votes (fun q hq => hx q (List.mem_cons_of_mem g hq))
      · rw [if_neg hg]
        rw [ih _ (fun q hq => hx q (List.mem_cons_of_mem g hq))]
        rw [List.filter_append]
        have h0 : ([(⟨g.id, g.name, tid, tn⟩ : WitchVote)]).filter
            (fun v => v.voterId == x) = [] := by
          simp [hgx]
        rw [h0, List.append_nil]

theorem filter_voterId_addGhostVotes_of_any (ghosts : List Player)
    (votes : List WitchVote) (tid tn x : String)
    (hx : votes.any (fun v => v.voterId == x) = true) :
    (addGhostVotes ghosts votes tid tn).filter (fun v => v.voterId == x) =
      votes.filter (fun v => v.voterId == x) := by
  induction ghosts generalizing votes with
  | nil => rfl
  | cons g rest ih =>
      rw [addGhostVotes_cons]
      by_cases hg : votes.any (fun v => v.voterId == g.id) = true
      · rw [if_pos hg]
        exact ih votes hx
      · rw [if_neg hg]
        have hgx : g.id ≠ x := fun he => hg (by rw [he]; exact hx)
        have hx' : (votes ++ [(⟨g.id, g.name, tid, tn⟩ : WitchVote)]).any
            (fun v => v.voterId == x) = true := by
          rw [List.any_append, hx]
          rfl
        rw [ih _ hx']
        rw [List.filter_append]
        have h0 : ([(⟨g.id, g.name, tid, tn⟩ : WitchVote)]).filter
            (fun v => v.voterId == x) = [] := by
          simp [hgx]
        rw [h0, List.append_nil]

theorem addGhostVotes_filter_self (ghosts : List Player)
    (votes : List WitchVote) (tid tn : String) (g : Player)
    (hmem : g ∈ ghosts) (hnd : (ghosts.map (·.id)).Nodup)
    (hvotes : votes.filter (fun v => v.voterId == g.id) = []) :
    (addGhostVotes ghosts votes tid tn).filter (fun v => v.voterId == g.id) =
      [⟨g.id, g.name, tid, tn⟩] := by
  induction ghosts generalizing votes with
  | nil => cases hmem
  | cons g0 rest ih =>
      rw [addGhostVotes_cons]
      rw [List.map_cons, List.nodup_cons] at hnd
      rcases List.mem_cons.mp hmem with heq | hmem'
      · subst heq
        have hnotany : ¬ (votes.any (fun v => v.voterId == g.id) = true) := by
          rw [List.any_eq_true]
          rintro ⟨v, hvmem, hpv⟩
          have hvf : v ∈ votes.filter (fun v => v.voterId == g.id) :=
            List.mem_filter.mpr ⟨hvmem, hpv⟩
          rw [hvotes] at hvf
          cases hvf
        rw [if_neg hnotany]
        have hrest : ∀ q ∈ rest, q.id ≠ g.id := by
          intro q hq he
          apply hnd.1
          rw [← he]
          exact List.mem_map_of_mem (·.id) hq
        rw [filter_voterId_addGhostVotes_of_forall rest _ tid tn g.id hrest]
        rw [List.filter_append, hvotes]
        simp
      · have hg0 : g0.id ≠ g.id := by
          intro he
          apply hnd.1
          rw [he]
          exact List.mem_map_of_mem (·.id) hmem'
        by_cases hany : votes.any (fun v => v.voterId == g0.id) = true
        · rw [if_pos hany]
          exact ih votes hmem' hnd.2 hvotes
        · rw [if_neg hany]
          refine ih _ hmem' hnd.2 ?_
          rw [List.filter_append, hvotes]
          simp [hg0]

theorem filter_ne_then_eq (l : List WitchVote) (x : String) :
    (l.filter (fun v => v.voterId != x)).filter (fun v => v.voterId == x) = [] := by
  rw [List.filter_eq_nil_iff]
  intro v hv
  have hm := List.mem_filter.mp hv
  simp only [bne_iff_ne, ne_eq] at hm
  simp [hm.2]

theorem filter_filter_nil (l : List WitchVote) (p q : WitchVote → Bool)
    (h : l.filter q = []) : (l.filter p).filter q = [] := by
  rw [List.filter_eq_nil_iff] at h ⊢
  intro v hv
  exact h v (List.mem_filter.mp hv).1

theorem filter_ne_comm_eq (l : List WitchVote) (x y : String) (hne : x ≠ y) :
    (l.filter (fun v => v.voterId != y)).filter (fun v => v.voterId == x) =
      l.filter (fun v => v.voterId == x) := by
  induction l with
  | nil => rfl
  | cons v l ih =>
      by_cases hvx : v.voterId = x
      · have hvy : (v.voterId != y) = true := by
          rw [bne_iff_ne]
          rw [hvx]
          exact hne
        rw [List.filter_cons, if_pos hvy, List.filter_cons, List.filter_cons]
        simp only [hvx, beq_self_eq_true, if_pos]
        rw [ih]
      · have hvx' : (v.voterId == x) = false := by
          simp [hvx]
        rw [List.filter_cons, List.filter_cons]
        by_cases hvy : (v.voterId != y) = true
        · rw [if_pos hvy, List.filter_cons, hvx']
          simp only [if_false, Bool.false_eq_true]
          rw [ih]
        · rw [if_neg hvy, hvx']
          simp only [if_false, Bool.false_eq_true]
          rw [ih]

theorem any_of_filter_cons (l : List WitchVote) (p : WitchVote → Bool)
    (v : WitchVote) (vs : List WitchVote) (h : l.filter p = v :: vs) :
    l.any p = true := by
  have hv : v ∈ l.filter p := by
    rw [h]
    exact List.mem_cons_self v vs
  have hm := List.mem_filter.mp hv
  rw [List.any_eq_true]
  exact ⟨v, hm.1, hm.2⟩

theorem applyAction_killVote (rand : Rand) (s : GameState) (pid tid : String)
    (voter target : Player)
    (hv : s.players.find? (fun p => p.id == pid) = some voter)
    (ht : s.players.find? (fun p => p.id == tid) = some target) :
    applyAction rand s pid (Action.KILL_VOTE tid) =
      { s with
        witchVotes := addGhostVotes
          (s.players.filter (fun p => p.isGhost && p.hasRevealedWitch && !p.isDead))
          ((s.witchVotes.filter (fun v => v.voterId != pid)) ++
            [⟨pid, voter.name, tid, target.name⟩])
          tid target.name,
        nightKillTargetId := some tid,
        nightConfirmations := addConfirmation s.nightConfirmations pid } := by
  simp only [applyAction]
  rw [hv, ht]

/-- C6 counterexample: the witch voter v casts KILL_VOTE for a, then for b.
The final state holds v's single vote for b and nightKillTargetId = b, but
the living ghost witch g's mirrored vote still targets a: the code only
ADDS a mirrored vote when the ghost has none, it never updates it to the
voter's newer target. -/
theorem killVote_ghost_counterexample :
    c6DoubleVote.witchVotes =
      [⟨"g", "Ng", "a", "Na"⟩, ⟨"v", "Nv", "b", "Nb"⟩] ∧
    c6DoubleVote.nightKillTargetId = some "b" := by
  exact ⟨rfl, rfl⟩

/-- C6 as the code has it: a KILL_VOTE replaces the caller's own prior
WitchVote (exactly one entry, holding the latest target) and sets
nightKillTargetId last-writer-wins; a living ghost witch receives a
mirrored vote only when it has none yet, and that mirrored vote keeps its
original target across the voter's later re-votes. -/
theorem killVote_replaces_not_updates (rand : Rand) (s : GameState)
    (pid t1 t2 : String) (voter target1 target2 : Player)
    (hnd : (s.players.map (·.id)).Nodup)
    (hv : s.players.find? (fun p => p.id == pid) = some voter)
    (h1 : s.players.find? (fun p => p.id == t1) = some target1)
    (h2 : s.players.find? (fun p => p.id == t2) = some target2) :
    (processPlayerAction rand (processPlayerAction rand s pid (Action.KILL_VOTE t1))
        pid (Action.KILL_VOTE t2)).witchVotes.filter (fun v => v.voterId == pid) =
      [⟨pid, voter.name, t2, target2.name⟩] ∧
    (processPlayerAction rand (processPlayerAction rand s pid (Action.KILL_VOTE t1))
        pid (Action.KILL_VOTE t2)).nightKillTargetId = some t2 ∧
    (∀ g ∈ s.players, g.isGhost = true → g.hasRevealedWitch = true →
      g.isDead = false → g.id ≠ pid →
      s.witchVotes.filter (fun v => v.voterId == g.id) = [] →
      (processPlayerAction rand (processPlayerAction rand s pid (Action.KILL_VOTE t1))
          pid (Action.KILL_VOTE t2)).witchVotes.filter (fun v => v.voterId == g.id) =
        [⟨g.id, g.name, t1, target1.name⟩]) := by
  have e1 := applyAction_killVote rand s pid t1 voter target1 hv h1
  have hp1 : (processPlayerAction rand s pid (Action.KILL_VOTE t1)).players =
      s.players := by
    rw [process_players_eq, e1]
  have hw1 : (processPlayerAction rand s pid (Action.KILL_VOTE t1)).witchVotes =
      addGhostVotes
        (s.players.filter (fun p => p.isGhost && p.hasRevealedWitch && !p.isDead))
        ((s.witchVotes.filter (fun v => v.voterId != pid)) ++
          [⟨pid, voter.name, t1, target1.name⟩]) t1 target1.name := by
    rw [process_witchVotes_eq, e1]
  have hv' : (processPlayerAction rand s pid (Action.KILL_VOTE t1)).players.find?
      (fun p => p.id == pid) = some voter := by
    rw [hp1]; exact hv
  have h2' : (processPlayerAction rand s pid (Action.KILL_VOTE t1)).players.find?
      (fun p => p.id == t2) = some target2 := by
    rw [hp1]; exact h2
  have e2 := applyAction_killVote rand
    (processPlayerAction rand s pid (Action.KILL_VOTE t1)) pid t2 voter target2 hv' h2'
  have hw2 : (processPlayerAction rand (processPlayerAction rand s pid
      (Action.KILL_VOTE t1)) pid (Action.KILL_VOTE t2)).witchVotes =
      addGhostVotes
        (s.players.filter (fun p => p.isGhost && p.hasRevealedWitch && !p.isDead))
        (((processPlayerAction rand s pid (Action.KILL_VOTE t1)).witchVotes.filter
            (fun v => v.voterId != pid)) ++
          [⟨pid, voter.name, t2, target2.name⟩]) t2 target2.name := by
    rw [process_witchVotes_eq, e2, hp1]
  have hkill : (processPlayerAction rand (processPlayerAction rand s pid
      (Action.KILL_VOTE t1)) pid (Action.KILL_VOTE t2)).nightKillTargetId =
      some t2 := by
    rw [process_nightKillTargetId_eq, e2]
  refine ⟨?_, hkill, ?_⟩
  · rw [hw2]
    have hany : (((processPlayerAction rand s pid (Action.KILL_VOTE t1)).witchVotes.filter
        (fun v => v.voterId != pid)) ++
        [(⟨pid, voter.name, t2, target2.name⟩ : WitchVote)]).any
        (fun v => v.voterId == pid) = true := by
      rw [List.any_append]
      simp
    rw [filter_voterId_addGhostVotes_of_any _ _ _ _ _ hany]
    rw [List.filter_append, filter_ne_then_eq]
    simp
  · intro g hg hghost hrw hdead hgpid hnovote
    have hGW : g ∈ s.players.filter
        (fun p => p.isGhost && p.hasRevealedWitch && !p.isDead) := by
      refine List.mem_filter.mpr ⟨hg, ?_⟩
      simp [hghost, hrw, hdead]
    have hndGW : ((s.players.filter
        (fun p => p.isGhost && p.hasRevealedWitch && !p.isDead)).map (·.id)).Nodup := by
      have hsub : ((s.players.filter
          (fun p => p.isGhost && p.hasRevealedWitch && !p.isDead)).map
            (fun p : Player => p.id)).Sublist (s.players.map (fun p : Player => p.id)) :=
        List.Sublist.map (fun p : Player => p.id) (List.filter_sublist s.players)
      exact List.Nodup.sublist hsub hnd
    have hpid_g : (pid == g.id) = false := by
      rw [beq_eq_false_iff_ne]
      exact fun he => hgpid (he.symm)
    have hV1 : ((s.witchVotes.filter (fun v => v.voterId != pid)) ++
        [(⟨pid, voter.name, t1, target1.name⟩ : WitchVote)]).filter
        (fun v => v.voterId == g.id) = [] := by
      rw [List.filter_append, filter_filter_nil _ _ _ hnovote]
      simp [hpid_g]
    have hs1g : (processPlayerAction rand s pid
        (Action.KILL_VOTE t1)).witchVotes.filter (fun v => v.voterId == g.id) =
        [⟨g.id, g.name, t1, target1.name⟩] := by
      rw [hw1]
      exact addGhostVotes_filter_self _ _ _ _ g hGW hndGW hV1
    have hV2 : (((processPlayerAction rand s pid (Action.KILL_VOTE t1)).witchVotes.filter
        (fun v => v.voterId != pid)) ++
        [(⟨pid, voter.name, t2, target2.name⟩ : WitchVote)]).filter
        (fun v => v.voterId == g.id) = [⟨g.id, g.name, t1, target1.name⟩] := by
      rw [List.filter_append]
      rw [filter_ne_comm_eq _ _ _ (fun he => hgpid he)]
      rw [hs1g]
      simp [hpid_g]
    have hany2 : (((processPlayerAction rand s pid (Action.KILL_VOTE t1)).witchVotes.filter
        (fun v => v.voterId != pid)) ++
        [(⟨pid, voter.name, t2, target2.name⟩ : WitchVote)]).any
        (fun v => v.voterId == g.id) = true :=
      any_of_filter_cons _ _ _ _ hV2
    rw [hw2]
    rw [filter_voterId_addGhostVotes_of_any _ _ _ _ _ hany2]
    exact hV2

/-- C6 witness: the two-vote scenario applied to the concrete fixture with
voter v, ghost witch g and targets a then b. -/
theorem killVote_replaces_not_updates_witness :
    (processPlayerAction trivialRand (processPlayerAction trivialRand c6State "v"
        (Action.KILL_VOTE "a")) "v" (Action.KILL_VOTE "b")).witchVotes.filter
      (fun v => v.voterId == "v") = [⟨"v", c6Voter.name, "b", (basePlayer "b").name⟩] ∧
    (processPlayerAction trivialRand (processPlayerAction trivialRand c6State "v"
        (Action.KILL_VOTE "a")) "v" (Action.KILL_VOTE "b")).witchVotes.filter
      (fun v => v.voterId == "g") = [⟨"g", c6Ghost.name, "a", (basePlayer "a").name⟩] := by
  have h := killVote_replaces_not_updates trivialRand c6State "v" "a" "b"
    c6Voter (basePlayer "a") (basePlayer "b") (by decide) rfl rfl rfl
  refine ⟨h.1, ?_⟩
  have hg : c6Ghost ∈ c6State.players := by
    simp [c6State, baseState]
  exact h.2.2 c6Ghost hg rfl rfl rfl (by decide) rfl

/- ----------------------------------------------------------------------
   C1: the public broadcast masking.
----------------------------------------------------------------------- -/

/-- C1 counterexample: two states that agree on everything except hidden
role data (one seat holds an unrevealed WITCH and is witch-aligned, the
other holds an unrevealed town card and is not), yet their public
broadcasts differ — the hasRevealedWitch (witch-alignment) field is
broadcast unmasked, so the broadcast reveals a hidden role to every
recipient. -/
theorem publicState_leaks_alignment :
    sameUpToHiddenRoles c1s1 c1s2 ∧ publicState c1s1 ≠ publicState c1s2 := by
  constructor
  · rfl
  · intro h
    have h2 : (publicState c1s1).players.map (·.hasRevealedWitch) =
        (publicState c1s2).players.map (·.hasRevealedWitch) := by rw [h]
    have h3 : ([true, false] : List Bool) = [false, false] := h2
    exact absurd h3 (by decide)

theorem map_maskPlayer_proj {α : Type} (ps : List Player) (f g : Player → α)
    (hfg : ∀ p, f (maskPlayer p) = g p) :
    (ps.map maskPlayer).map f = ps.map g := by
  rw [List.map_map]
  induction ps with
  | nil => rfl
  | cons p l ih =>
      simp only [List.map_cons, Function.comp_apply, hfg p, ih]

/-- C1 as the code has it: the public broadcast nulls exactly the type of
every unrevealed card — card ids, reveal flags, per-hand counts and every
revealed type stay visible — while every other field of the state,
including each player's hasEverHeldWitchCard alignment flag and the
witchVotes list, is passed through to all recipients unchanged. -/
theorem publicState_masks_only_cards (s : GameState) :
    (publicState s).roomId = s.roomId ∧
    (publicState s).phase = s.phase ∧
    (publicState s).logs = s.logs ∧
    (publicState s).nightKillTargetId = s.nightKillTargetId ∧
    (publicState s).constableGuardId = s.constableGuardId ∧
    (publicState s).turnCounter = s.turnCounter ∧
    (publicState s).witchVotes = s.witchVotes ∧
    (publicState s).pendingAccusation = s.pendingAccusation ∧
    (publicState s).conspiracySelections = s.conspiracySelections ∧
    (publicState s).nightConfirmations = s.nightConfirmations ∧
    (publicState s).fakeVotes = s.fakeVotes ∧
    (publicState s).isSmallGameMode = s.isSmallGameMode ∧
    (publicState s).nightDamageSelection = s.nightDamageSelection ∧
    (publicState s).players.map (·.id) = s.players.map (·.id) ∧
    (publicState s).players.map (·.name) = s.players.map (·.name) ∧
    (publicState s).players.map (·.isDead) = s.players.map (·.isDead) ∧
    (publicState s).players.map (·.isGhost) = s.players.map (·.isGhost) ∧
    (publicState s).players.map (·.isHost) = s.players.map (·.isHost) ∧
    (publicState s).players.map (·.hasBlackCat) = s.players.map (·.hasBlackCat) ∧
    (publicState s).players.map (·.immune) = s.players.map (·.immune) ∧
    (publicState s).players.map (·.hasRevealedWitch) =
      s.players.map (·.hasRevealedWitch) ∧
    (publicState s).players.map (fun p => p.cards.length) =
      s.players.map (fun p => p.cards.length) ∧
    (publicState s).players.map (fun p => p.cards.map (·.id)) =
      s.players.map (fun p => p.cards.map (·.id)) ∧
    (publicState s).players.map (fun p => p.cards.map (·.isRevealed)) =
      s.players.map (fun p => p.cards.map (·.isRevealed)) ∧
    (publicState s).players.map (fun p => p.cards.map (·.type)) =
      s.players.map (fun p => p.cards.map
        (fun c => if c.isRevealed then c.type else none)) := by
  refine ⟨rfl, rfl, rfl, rfl, rfl, rfl, rfl, rfl, rfl, rfl, rfl, rfl, rfl,
    ?_, ?_, ?_, ?_, ?_, ?_, ?_, ?_, ?_, ?_, ?_, ?_⟩
  · exact map_maskPlayer_proj s.players _ _ (fun p => rfl)
  · exact map_maskPlayer_proj s.players _ _ (fun p => rfl)
  · exact map_maskPlayer_proj s.players _ _ (fun p => rfl)
  · exact map_maskPlayer_proj s.players _ _ (fun p => rfl)
  · exact map_maskPlayer_proj s.players _ _ (fun p => rfl)
  · exact map_maskPlayer_proj s.players _ _ (fun p => rfl)
  · exact map_maskPlayer_proj s.players _ _ (fun p => rfl)
  · exact map_maskPlayer_proj s.players _ _ (fun p => rfl)
  · exact map_maskPlayer_proj s.players _ _
      (fun p => by simp [maskPlayer])
  · exact map_maskPlayer_proj s.players _ _
      (fun p => by rw [maskPlayer]; rw [List.map_map]; rfl)
  · exact map_maskPlayer_proj s.players _ _
      (fun p => by rw [maskPlayer]; rw [List.map_map]; rfl)
  · exact map_maskPlayer_proj s.players _ _
      (fun p => by rw [maskPlayer]; rw [List.map_map]; rfl)

/- ----------------------------------------------------------------------
   C2: win-condition monotonicity.
----------------------------------------------------------------------- -/

theorem forall₂_mem_right {α β : Type} {R : α → β → Prop} {l : List α}
    {l' : List β} (h : List.Forall₂ R l l') :
    ∀ b ∈ l', ∃ a ∈ l, R a b := by
  induction h with
  | nil => intro b hb; cases hb
  | cons hR hrest ih =>
      intro b hb
      rcases List.mem_cons.mp hb with heq | hb'
      · subst heq
        exact ⟨_, List.mem_cons_self _ _, hR⟩
      · obtain ⟨a, ha, hra⟩ := ih b hb'
        exact ⟨a, List.mem_cons_of_mem _ ha, hra⟩

theorem forall₂_mem_left {α β : Type} {R : α → β → Prop} {l : List α}
    {l' : List β} (h : List.Forall₂ R l l') :
    ∀ a ∈ l, ∃ b ∈ l', R a b := by
  induction h with
  | nil => intro a ha; cases ha
  | cons hR hrest ih =>
      intro a ha
      rcases List.mem_cons.mp ha with heq | ha'
      · subst heq
        exact ⟨_, List.mem_cons_self _ _, hR⟩
      · obtain ⟨b, hb, hrb⟩ := ih a ha'
        exact ⟨b, List.mem_cons_of_mem _ hb, hrb⟩

theorem forall₂_append {α β : Type} {R : α → β → Prop}
    {l1 : List α} {l2 : List β} {l3 : List α} {l4 : List β}
    (h1 : List.Forall₂ R l1 l2) (h2 : List.Forall₂ R l3 l4) :
    List.Forall₂ R (l1 ++ l3) (l2 ++ l4) := by
  induction h1 with
  | nil => exact h2
  | cons hR hrest ih => exact List.Forall₂.cons hR ih

theorem mem_flatCards (qs : List Player) (c : Card) :
    c ∈ flatCards qs ↔ ∃ p ∈ qs, c ∈ p.cards := by
  simp [flatCards, List.mem_flatten]

/-- A player not dead in the derived roster was not dead in the source. -/
theorem playerDerived_alive {p p' : Player} (h : playerDerived p p')
    (ha : p'.isDead = false) : p.isDead = false := by
  rcases h with ⟨_, _, _, _, _, _, _, _, _, hdead, _⟩
  cases hp : p.isDead
  · rfl
  · rw [hdead hp] at ha
    cases ha

theorem bool_ne_true {b : Bool} (h : ¬ b = true) : b = false := by
  cases b
  · rfl
  · exact absurd rfl h

theorem activeWitch_empty_iff (ps : List Player) :
    (((flatCards (ps.filter (fun p => !p.isDead))).filter (fun c =>
        c.type == some CardType.WITCH && !c.isRevealed)).length = 0) ↔
    ∀ p ∈ ps, p.isDead = false → ∀ c ∈ p.cards,
      c.type = some CardType.WITCH → c.isRevealed = true := by
  rw [List.length_eq_zero, List.filter_eq_nil_iff]
  constructor
  · intro h p hp hd c hc ht
    cases hr : c.isRevealed
    · exfalso
      have hcf : c ∈ flatCards (ps.filter (fun p => !p.isDead)) := by
        rw [mem_flatCards]
        exact ⟨p, List.mem_filter.mpr ⟨hp, by simp [hd]⟩, hc⟩
      exact h c hcf (by simp [ht, hr])
    · rfl
  · intro h c hcf hpred
    rw [mem_flatCards] at hcf
    obtain ⟨p, hpf, hc⟩ := hcf
    have hm := List.mem_filter.mp hpf
    rw [Bool.and_eq_true, beq_iff_eq, Bool.not_eq_true'] at hpred
    have := h p hm.1 (by simpa using hm.2) c hc hpred.1
    rw [hpred.2] at this
    cases this

theorem townTeam_empty_iff (ps : List Player) :
    (((ps.filter (fun p => !p.isDead)).filter
        (fun p => !p.hasRevealedWitch)).length = 0) ↔
    ∀ p ∈ ps, p.isDead = false → p.hasRevealedWitch = true := by
  rw [List.length_eq_zero, List.filter_eq_nil_iff]
  constructor
  · intro h p hp hd
    cases hr : p.hasRevealedWitch
    · exfalso
      exact h p (List.mem_filter.mpr ⟨hp, by simp [hd]⟩) (by simp [hr])
    · rfl
  · intro h p hpf hpred
    have hm := List.mem_filter.mp hpf
    have := h p hm.1 (by simpa using hm.2)
    rw [Bool.not_eq_true'] at hpred
    rw [hpred] at this
    cases this

/-- A non-null standard-mode result is exactly: no living player holds an
unrevealed WITCH card, or every living player is witch-aligned. -/
theorem standard_nonnull_iff (ps : List Player) :
    checkWinCondition ps false ≠ none ↔
      ((∀ p ∈ ps, p.isDead = false → ∀ c ∈ p.cards,
          c.type = some CardType.WITCH → c.isRevealed = true) ∨
       (∀ p ∈ ps, p.isDead = false → p.hasRevealedWitch = true)) := by
  unfold checkWinCondition
  simp only [Bool.false_eq_true, if_false]
  split_ifs with h1 h2
  · simp only [ne_eq, reduceCtorEq, not_false_eq_true, true_iff]
    exact Or.inl ((activeWitch_empty_iff ps).mp h1)
  · simp only [ne_eq, reduceCtorEq, not_false_eq_true, true_iff]
    exact Or.inr ((townTeam_empty_iff ps).mp h2)
  · simp only [ne_eq, not_true_eq_false, false_iff]
    intro hor
    rcases hor with hl | hr
    · exact h1 ((activeWitch_empty_iff ps).mpr hl)
    · exact h2 ((townTeam_empty_iff ps).mpr hr)

/-- A non-null small-mode result is exactly: the first WITCH card is
revealed, or some non-empty hand is fully revealed, or all real players
are witch-aligned. -/
theorem small_nonnull_iff (ps : List Player) :
    checkWinCondition ps true ≠ none ↔
      ((∃ c, (flatCards ps).find? (fun c => c.type == some CardType.WITCH) = some c
          ∧ c.isRevealed = true) ∨
       (∃ p ∈ ps, p.cards ≠ [] ∧ ∀ c ∈ p.cards, c.isRevealed = true) ∨
       ((∃ p ∈ ps, p.isGhost = false) ∧
        ∀ p ∈ ps, p.isGhost = false → p.hasRevealedWitch = true)) := by
  unfold checkWinCondition
  simp only [if_true]
  split_ifs with h1 h2 h3
  · simp only [ne_eq, reduceCtorEq, not_false_eq_true, true_iff]
    exact Or.inl ((small_town_cond_iff ps).mp h1)
  · simp only [ne_eq, reduceCtorEq, not_false_eq_true, true_iff]
    exact Or.inr (Or.inl ((small_elim_cond_iff ps).mp h2))
  · simp only [ne_eq, reduceCtorEq, not_false_eq_true, true_iff]
    exact Or.inr (Or.inr ((small_allreal_cond_iff ps).mp h3))
  · simp only [ne_eq, not_true_eq_false, false_iff]
    intro hor
    rcases hor with ha | hb | hc
    · exact h1 ((small_town_cond_iff ps).mpr ha)
    · exact h2 ((small_elim_cond_iff ps).mpr hb)
    · exact h3 ((small_allreal_cond_iff ps).mpr hc)

theorem forall₂_flatCards {ps ps' : List Player} (h : rosterDerived ps ps') :
    List.Forall₂ cardDerived (flatCards ps) (flatCards ps') := by
  induction h with
  | nil => exact List.Forall₂.nil
  | cons hR hrest ih =>
      rename_i p p' l l'
      have hflat : flatCards (p :: l) = p.cards ++ flatCards l := by
        simp [flatCards]
      have hflat' : flatCards (p' :: l') = p'.cards ++ flatCards l' := by
        simp [flatCards]
      rw [hflat, hflat']
      exact forall₂_append hR.2.2.2.2.2.2.2.2.2.2 ih

theorem find?_witch_derived {l l' : List Card}
    (h : List.Forall₂ cardDerived l l') (c : Card)
    (hf : l.find? (fun c => c.type == some CardType.WITCH) = some c) :
    ∃ c', l'.find? (fun c => c.type == some CardType.WITCH) = some c' ∧
      cardDerived c c' := by
  induction h with
  | nil => cases hf
  | cons hR hrest ih =>
      rename_i a b xs ys
      have htype : b.type = a.type := hR.2.1
      by_cases hp : (a.type == some CardType.WITCH) = true
      · have hfa : (a :: xs).find? (fun c => c.type == some CardType.WITCH) = some a :=
          @List.find?_cons_of_pos _ (fun c => c.type == some CardType.WITCH) a xs hp
        rw [hfa] at hf
        injection hf with hf
        subst hf
        have hb : (b.type == some CardType.WITCH) = true := by
          rw [htype]
          exact hp
        exact ⟨b, @List.find?_cons_of_pos _ (fun c => c.type == some CardType.WITCH) b ys hb, hR⟩
      · have hfa : (a :: xs).find? (fun c => c.type == some CardType.WITCH) =
            xs.find? (fun c => c.type == some CardType.WITCH) :=
          @List.find?_cons_of_neg _ (fun c => c.type == some CardType.WITCH) a xs hp
        rw [hfa] at hf
        obtain ⟨c', hc', hder⟩ := ih hf
        have hb : ¬ (b.type == some CardType.WITCH) = true := by
          rw [htype]
          exact hp
        refine ⟨c', ?_, hder⟩
        have hfb : (b :: ys).find? (fun c => c.type == some CardType.WITCH) =
            ys.find? (fun c => c.type == some CardType.WITCH) :=
          @List.find?_cons_of_neg _ (fun c => c.type == some CardType.WITCH) b ys hb
        rw [hfb]
        exact hc'

/-- C2 counterexample: a lone living witch-aligned player with an
unrevealed WITCH card is a WITCH-side win; revealing that card (a valid
derivation step) flips the result to a TOWN win.  The result stays
non-null, but the winning side is not preserved — and TOWN is the
strictly higher-priority side in the evaluator, not an equal-priority
one. -/
theorem winSide_flip_counterexample :
    rosterDerived [c2Before] [c2After] ∧
    checkWinCondition [c2Before] false = some WinResult.WITCH_WIN ∧
    checkWinCondition [c2After] false = some WinResult.TOWN_WIN := by
  refine ⟨?_, rfl, rfl⟩
  refine List.Forall₂.cons ?_ List.Forall₂.nil
  exact ⟨rfl, rfl, rfl, rfl, rfl, rfl, rfl, rfl, rfl, fun h => h,
    List.Forall₂.cons ⟨rfl, rfl, fun _ => rfl⟩ List.Forall₂.nil⟩

/-- C2 as the code has it: in both modes, a non-null result of
checkWinCondition stays non-null on every roster derived by revealing
additional cards or marking additional players dead; the winning side,
however, may flip from WITCH to TOWN (see the counterexample). -/
theorem checkWinCondition_no_unwinning (ps ps' : List Player) (m : Bool)
    (hd : rosterDerived ps ps') (hw : checkWinCondition ps m ≠ none) :
    checkWinCondition ps' m ≠ none := by
  cases m with
  | false =>
      rw [standard_nonnull_iff] at hw ⊢
      rcases hw with h | h
      · left
        intro p' hp' halive c' hc' ht'
        obtain ⟨p, hp, hder⟩ := forall₂_mem_right hd p' hp'
        obtain ⟨-, -, -, -, -, -, -, -, -, hdead, hcards⟩ := hder
        obtain ⟨c, hc, hcder⟩ := forall₂_mem_right hcards c' hc'
        have hpd : p.isDead = false := by
          cases hpp : p.isDead
          · rfl
          · rw [hdead hpp] at halive
            cases halive
        have htc : c.type = some CardType.WITCH := by
          rw [← hcder.2.1]
          exact ht'
        exact hcder.2.2 (h p hp hpd c hc htc)
      · right
        intro p' hp' halive
        obtain ⟨p, hp, hder⟩ := forall₂_mem_right hd p' hp'
        obtain ⟨-, -, -, -, -, hrw, -, -, -, hdead, -⟩ := hder
        have hpd : p.isDead = false := by
          cases hpp : p.isDead
          · rfl
          · rw [hdead hpp] at halive
            cases halive
        rw [hrw]
        exact h p hp hpd
  | true =>
      rw [small_nonnull_iff] at hw ⊢
      rcases hw with h | h | h
      · left
        obtain ⟨c, hfc, hrev⟩ := h
        obtain ⟨c', hfc', hcder⟩ := find?_witch_derived (forall₂_flatCards hd) c hfc
        exact ⟨c', hfc', hcder.2.2 hrev⟩
      · right; left
        obtain ⟨p, hp, hne, hall⟩ := h
        obtain ⟨p', hp', hder⟩ := forall₂_mem_left hd p hp
        obtain ⟨-, -, -, -, -, -, -, -, -, -, hcards⟩ := hder
        refine ⟨p', hp', ?_, ?_⟩
        · intro hnil
          apply hne
          have hlen := List.Forall₂.length_eq hcards
          rw [hnil] at hlen
          exact List.length_eq_zero.mp hlen
        · intro c' hc'
          obtain ⟨c, hc, hcder⟩ := forall₂_mem_right hcards c' hc'
          exact hcder.2.2 (hall c hc)
      · right; right
        obtain ⟨hex, hall⟩ := h
        constructor
        · obtain ⟨p, hp, hg⟩ := hex
          obtain ⟨p', hp', hder⟩ := forall₂_mem_left hd p hp
          obtain ⟨-, -, -, -, -, -, -, -, hghost, -, -⟩ := hder
          refine ⟨p', hp', ?_⟩
          rw [hghost]
          exact hg
        · intro p' hp' hg'
          obtain ⟨p, hpmem, hder⟩ := forall₂_mem_right hd p' hp'
          obtain ⟨-, -, -, -, -, hrw, -, -, hghost, -, -⟩ := hder
          rw [hrw]
          apply hall p hpmem
          rw [← hghost]
          exact hg'

/-- C2 witness: the non-null preservation applied to the concrete
one-player derivation of the counterexample fixture. -/
theorem checkWinCondition_no_unwinning_witness :
    rosterDerived [c2Before] [c2After] ∧
    checkWinCondition [c2After] false ≠ none := by
  have hd : rosterDerived [c2Before] [c2After] :=
    List.Forall₂.cons
      ⟨rfl, rfl, rfl, rfl, rfl, rfl, rfl, rfl, rfl, fun h => h,
       List.Forall₂.cons ⟨rfl, rfl, fun _ => rfl⟩ List.Forall₂.nil⟩
      List.Forall₂.nil
  exact ⟨hd, checkWinCondition_no_unwinning [c2Before] [c2After] false hd
    (by decide)⟩

/- ----------------------------------------------------------------------
   C10: a roster with no unrevealed witch in living hands is a TOWN win,
   and any action on an all-empty-hands standard state forces GAME_OVER.
----------------------------------------------------------------------- -/

theorem updateFirstBy_mem {l : List Player} {pred : Player → Bool}
    {f : Player → Player} {q : Player} (hq : q ∈ updateFirstBy l pred f) :
    q ∈ l ∨ ∃ p ∈ l, q = f p := by
  induction l with
  | nil => cases hq
  | cons p rest ih =>
      rw [updateFirstBy] at hq
      by_cases hp : pred p = true
      · rw [if_pos hp] at hq
        rcases List.mem_cons.mp hq with heq | hq'
        · exact Or.inr ⟨p, List.mem_cons_self p rest, heq⟩
        · exact Or.inl (List.mem_cons_of_mem p hq')
      · rw [if_neg hp] at hq
        rcases List.mem_cons.mp hq with heq | hq'
        · exact Or.inl (heq ▸ List.mem_cons_self p rest)
        · rcases ih hq' with hmem | ⟨p0, hp0, he⟩
          · exact Or.inl (List.mem_cons_of_mem p hmem)
          · exact Or.inr ⟨p0, List.mem_cons_of_mem p hp0, he⟩

theorem foldl_setEntry_shape (ps : List Player) (h : ∀ p ∈ ps, p.cards = [])
    (m : CardsMap) (hm : ∀ i, m i = none ∨ m i = some []) :
    ∀ i, (ps.foldl (fun m p => setEntry m p.id p.cards) m) i = none ∨
         (ps.foldl (fun m p => setEntry m p.id p.cards) m) i = some [] := by
  induction ps generalizing m with
  | nil => exact hm
  | cons p rest ih =>
      rw [List.foldl_cons]
      refine ih (fun q hq => h q (List.mem_cons_of_mem p hq)) _ ?_
      intro i
      unfold setEntry
      by_cases hip : (i == p.id) = true
      · rw [if_pos hip]
        right
        rw [h p (List.mem_cons_self p rest)]
      · rw [if_neg hip]
        exact hm i

theorem execTransfer_shape (acc : CardsMap × List String) (t : CardTransfer)
    (hm : ∀ i, acc.1 i = none ∨ acc.1 i = some []) :
    ∀ i, (execTransfer acc t).1 i = none ∨ (execTransfer acc t).1 i = some [] := by
  intro i
  unfold execTransfer
  cases hf : acc.1 t.fromPlayerId with
  | none => simp only [hf]; exact hm i
  | some l =>
      have hl : l = [] := by
        rcases hm t.fromPlayerId with h0 | h0
        · rw [hf] at h0
          exact Option.noConfusion h0
        · rw [hf] at h0
          exact Option.some.inj h0
      subst hl
      cases hto : acc.1 t.toPlayerId with
      | none => simp only [hf, hto]; exact hm i
      | some l2 => simp only [hf, hto, removeFirst]; exact hm i

theorem foldl_execTransfer_shape (ts : List CardTransfer)
    (acc : CardsMap × List String)
    (hm : ∀ i, acc.1 i = none ∨ acc.1 i = some []) :
    ∀ i, (ts.foldl execTransfer acc).1 i = none ∨
         (ts.foldl execTransfer acc).1 i = some [] := by
  induction ts generalizing acc with
  | nil => exact hm
  | cons t rest ih =>
      rw [List.foldl_cons]
      exact ih _ (execTransfer_shape acc t hm)

theorem resolveConspiracy_empty (rand : Rand)
    (hperm : ∀ l, (rand.shuffleCards l).Perm l) (s : GameState)
    (h : ∀ p ∈ s.players, p.cards = []) :
    ∀ p ∈ (resolveConspiracy rand s).players, p.cards = [] := by
  have hsh : rand.shuffleCards [] = [] := List.Perm.eq_nil (hperm [])
  intro q hq
  unfold resolveConspiracy at hq
  simp only [List.mem_map] at hq
  obtain ⟨p, hp, rfl⟩ := hq
  have hshape := foldl_execTransfer_shape
    (computeTransfers s.players (ghostAutoSelect rand s.players s.conspiracySelections))
    (initCardsMap s.players, [])
    (fun i => foldl_setEntry_shape s.players h (fun _ => none) (fun _ => Or.inl rfl) i)
  rcases hshape p.id with h0 | h0
  · simp only [h0, Option.getD_none]
    rw [h p hp]
    exact hsh
  · simp only [h0, Option.getD_some]
    exact hsh

theorem conspiracyStep_empty (rand : Rand)
    (hperm : ∀ l, (rand.shuffleCards l).Perm l) (s : GameState)
    (targetPlayerId cardId : String) (h : ∀ p ∈ s.players, p.cards = []) :
    ∀ p ∈ (conspiracyStep rand s targetPlayerId cardId).players, p.cards = [] := by
  simp only [conspiracyStep]
  split
  · exact resolveConspiracy_empty rand hperm _ h
  · exact h

theorem applyAction_preserves_empty (rand : Rand)
    (hperm : ∀ l, (rand.shuffleCards l).Perm l) (s : GameState)
    (pid : String) (a : Action) (h : ∀ p ∈ s.players, p.cards = []) :
    ∀ p ∈ (applyAction rand s pid a).players, p.cards = [] := by
  have hsh : rand.shuffleCards [] = [] := List.Perm.eq_nil (hperm [])
  cases a with
  | CONSPIRACY_SELECT cardId => exact conspiracyStep_empty rand hperm s pid cardId h
  | CONSPIRACY_SELECT_FOR_OTHER forPlayerId cardId =>
      exact conspiracyStep_empty rand hperm s forPlayerId cardId h
  | NIGHT_DAMAGE_SELECT cardIds =>
      simp only [applyAction]
      repeat' split
      all_goals
        first
        | exact h
        | (intro q hq
           simp only [List.mem_map] at hq
           obtain ⟨p0, hp0, rfl⟩ := hq
           split <;> simp [h p0 hp0])
  | BLACK_CAT targetId =>
      simp only [applyAction]
      repeat' split
      all_goals
        first
        | exact h
        | (intro q hq
           simp only [List.mem_map] at hq
           obtain ⟨p0, hp0, rfl⟩ := hq
           simpa using h p0 hp0)
  | _ =>
      simp only [applyAction]
      repeat' split
      all_goals
        first
        | exact h
        | (intro q hq
           rcases updateFirstBy_mem hq with hmem | ⟨p0, hp0, h0⟩
           · exact h q hmem
           · subst h0
             simp [h p0 hp0, setRevealedFirst, hsh])

theorem applyAction_smallMode (rand : Rand) (s : GameState) (pid : String)
    (a : Action) :
    (applyAction rand s pid a).isSmallGameMode = s.isSmallGameMode := by
  cases a <;>
    simp only [applyAction, conspiracyStep, resolveConspiracy] <;>
    (repeat' split) <;>
    rfl

theorem standard_town_of (ps : List Player)
    (hps : ∀ p ∈ ps, p.isDead = false → ∀ c ∈ p.cards,
      c.type = some CardType.WITCH → c.isRevealed = true) :
    checkWinCondition ps false = some WinResult.TOWN_WIN := by
  unfold checkWinCondition
  simp only [Bool.false_eq_true, if_false]
  rw [if_pos ((activeWitch_empty_iff ps).mpr hps)]

/-- C10: standard-mode checkWinCondition returns TOWN_WIN whenever no
living player's hand has an unrevealed WITCH card (in particular when
every hand is empty), and processPlayerAction applied to ANY action on a
standard-mode state whose hands are all empty and whose phase is not yet
GAME_OVER forces the phase to GAME_OVER and appends "Town Win!" to the
log. -/
theorem emptyHands_forceGameOver (rand : Rand) (s : GameState) (pid : String)
    (a : Action) (ps : List Player)
    (hps : ∀ p ∈ ps, p.isDead = false → ∀ c ∈ p.cards,
      c.type = some CardType.WITCH → c.isRevealed = true)
    (hperm : ∀ l, (rand.shuffleCards l).Perm l)
    (hmode : s.isSmallGameMode = false)
    (hempty : ∀ p ∈ s.players, p.cards = [])
    (hphase : s.phase ≠ GamePhase.GAME_OVER) :
    checkWinCondition ps false = some WinResult.TOWN_WIN ∧
    (processPlayerAction rand s pid a).phase = GamePhase.GAME_OVER ∧
    (processPlayerAction rand s pid a).logs =
      (applyAction rand s pid a).logs ++ ["Town Win!"] := by
  have hup := applyAction_preserves_empty rand hperm s pid a hempty
  have hwin : checkWinCondition (applyAction rand s pid a).players
      (applyAction rand s pid a).isSmallGameMode = some WinResult.TOWN_WIN := by
    rw [applyAction_smallMode, hmode]
    apply standard_town_of
    intro p hp _ c hc
    rw [hup p hp] at hc
    cases hc
  have hres : processPlayerAction rand s pid a =
      { applyAction rand s pid a with
        phase := GamePhase.GAME_OVER,
        logs := (applyAction rand s pid a).logs ++ ["Town Win!"] } := by
    simp only [processPlayerAction, hwin]
    rw [if_pos hphase]
    rfl
  refine ⟨standard_town_of ps hps, ?_, ?_⟩
  · rw [hres]
  · rw [hres]

/-- C10 witness: two empty-handed players in standard mode, hit with a
TRIGGER_CONSPIRACY action. -/
theorem emptyHands_forceGameOver_witness :
    checkWinCondition c10State.players false = some WinResult.TOWN_WIN ∧
    (processPlayerAction trivialRand c10State "a" Action.TRIGGER_CONSPIRACY).phase =
      GamePhase.GAME_OVER ∧
    (processPlayerAction trivialRand c10State "a" Action.TRIGGER_CONSPIRACY).logs =
      (applyAction trivialRand c10State "a" Action.TRIGGER_CONSPIRACY).logs ++
        ["Town Win!"] :=
  emptyHands_forceGameOver trivialRand c10State "a" Action.TRIGGER_CONSPIRACY
    c10State.players (by decide) (fun l => List.Perm.refl l) rfl (by decide)
    (by decide)

/- ----------------------------------------------------------------------
   C7: conspiracy card rotation preserves hand sizes and the card multiset.
----------------------------------------------------------------------- -/

/-- removeFirst on a hand containing the target id returns the first
matching card and the hand with that one occurrence spliced out. -/
theorem removeFirst_spec (cards : List Card) (cid : String)
    (h : ∃ c ∈ cards, c.id = cid) :
    ∃ c rest, removeFirst cards cid = some (c, rest) ∧ c.id = cid ∧
      cards.Perm (c :: rest) ∧ cards.length = rest.length + 1 := by
  induction cards with
  | nil =>
      obtain ⟨c, hc, _⟩ := h
      cases hc
  | cons c0 l ih =>
      by_cases h0 : (c0.id == cid) = true
      · refine ⟨c0, l, ?_, by simpa using h0, List.Perm.refl _, rfl⟩
        rw [removeFirst, if_pos h0]
      · have h' : ∃ c ∈ l, c.id = cid := by
          obtain ⟨c, hc, hcid⟩ := h
          rcases List.mem_cons.mp hc with heq | hmem
          · subst heq
            exact absurd (by simp [hcid]) h0
          · exact ⟨c, hmem, hcid⟩
        obtain ⟨c, rest, hrm, hcid, hpm, hlen⟩ := ih h'
        refine ⟨c, c0 :: rest, ?_, hcid, ?_, by simp [hlen]⟩
        · rw [removeFirst, if_neg h0, hrm]
          rfl
        · exact List.Perm.trans (List.Perm.cons c0 hpm) (List.Perm.swap c c0 rest)

/-- removeFirst only inspects the prefix in which the target id occurs:
appending extra cards on the right changes neither the removed card nor
the order of the remainder. -/
theorem removeFirst_append_left (l1 l2 : List Card) (cid : String)
    (c : Card) (rest : List Card) (h : removeFirst l1 cid = some (c, rest)) :
    removeFirst (l1 ++ l2) cid = some (c, rest ++ l2) := by
  induction l1 generalizing rest with
  | nil => cases h
  | cons c0 t ih =>
      rw [List.cons_append, removeFirst]
      by_cases h0 : (c0.id == cid) = true
      · rw [if_pos h0]
        rw [removeFirst, if_pos h0] at h
        have h1 : c0 = c := congrArg Prod.fst (Option.some.inj h)
        have h2 : t = rest := congrArg Prod.snd (Option.some.inj h)
        subst h1
        subst h2
        rfl
      · rw [if_neg h0]
        rw [removeFirst, if_neg h0] at h
        cases hrm : removeFirst t cid with
        | none =>
            rw [hrm] at h
            cases h
        | some pr =>
            obtain ⟨cx, rx⟩ := pr
            rw [hrm] at h
            simp only [Option.map_some'] at h
            have h1 : cx = c := congrArg Prod.fst (Option.some.inj h)
            have h2 : c0 :: rx = rest := congrArg Prod.snd (Option.some.inj h)
            subst h1
            subst h2
            rw [ih rx hrm]
            rfl

/-- setEntry hits the key it sets. -/
theorem setEntry_same (m : CardsMap) (pid : String) (cards : List Card) :
    setEntry m pid cards pid = some cards := by
  unfold setEntry
  simp

/-- setEntry leaves every other key unchanged. -/
theorem setEntry_other (m : CardsMap) (pid : String) (cards : List Card)
    (i : String) (h : (i == pid) = false) : setEntry m pid cards i = m i := by
  unfold setEntry
  simp [h]

/-- The map component of execTransfer, written out by cases on the
source hand and the removal result. -/
theorem execTransfer_fst (m : CardsMap) (w : List String) (t : CardTransfer) :
    (execTransfer (m, w) t).1 = (execTransfer (m, ([] : List String)) t).1 := by
  unfold execTransfer
  cases hf : m t.fromPlayerId with
  | none => simp [hf]
  | some fc =>
      cases ht : m t.toPlayerId with
      | none => simp [hf, ht]
      | some tc =>
          cases hrm : removeFirst fc t.cardId with
          | none => simp [hf, ht, hrm]
          | some pr =>
              obtain ⟨cx, rx⟩ := pr
              simp [hf, ht, hrm]

/-- The warnings accumulator never feeds back into the card map, so the
map component of the transfer fold is a fold over maps alone. -/
theorem foldl_execTransfer_fst (ts : List CardTransfer) (m : CardsMap)
    (w : List String) :
    ((ts.foldl execTransfer (m, w)).1) =
      ts.foldl (fun m t => (execTransfer (m, ([] : List String)) t).1) m := by
  induction ts generalizing m w with
  | nil => rfl
  | cons t rest ih =>
      rw [List.foldl_cons, List.foldl_cons]
      have hsplit : execTransfer (m, w) t =
          ((execTransfer (m, w) t).1, (execTransfer (m, w) t).2) := rfl
      rw [hsplit, ih, execTransfer_fst]

/-- Moving the first removed element of each of four lists to the end of
the previous list is a permutation of the concatenation. -/
theorem perm_rotate4 {α : Type} (r1 r2 r3 r4 : List α) (x1 x2 x3 x4 : α) :
    ((r1 ++ [x1]) ++ ((r2 ++ [x2]) ++ ((r3 ++ [x3]) ++ (r4 ++ [x4])))).Perm
      ((x2 :: r1) ++ ((x3 :: r2) ++ ((x4 :: r3) ++ (x1 :: r4)))) := by
  rw [← Multiset.coe_eq_coe]
  simp only [List.append_nil, ← Multiset.coe_add, ← Multiset.cons_coe,
    Multiset.coe_nil, ← Multiset.singleton_add]
  abel

/-- C7: when a conspiracy resolves with 4 living entities each having
selected a distinct hidden card from their immediate left neighbor, the
executed transfers (computed from the single pre-transfer snapshot built
by initCardsMap) leave every entity's hand size unchanged, permute the
combined pool of cards (nothing lost or created), and keep all card ids
distinct. -/
theorem conspiracy_rotation_preserves_hands (rand : Rand) (s : GameState)
    (pa pb pc pd : Player) (sa sb sc sd : String)
    (hperm : ∀ l, (rand.shuffleCards l).Perm l)
    (hplayers : s.players = [pa, pb, pc, pd])
    (hsel : s.conspiracySelections = [⟨pb.id, sb⟩, ⟨pc.id, sc⟩, ⟨pd.id, sd⟩])
    (ha1 : pa.isDead = false) (hb1 : pb.isDead = false)
    (hc1 : pc.isDead = false) (hd1 : pd.isDead = false)
    (ha2 : pa.isGhost = false) (hb2 : pb.isGhost = false)
    (hc2 : pc.isGhost = false) (hd2 : pd.isGhost = false)
    (hab : pa.id ≠ pb.id) (hac : pa.id ≠ pc.id) (had : pa.id ≠ pd.id)
    (hbc : pb.id ≠ pc.id) (hbd : pb.id ≠ pd.id) (hcd : pc.id ≠ pd.id)
    (hsb : ∃ c ∈ pa.cards, c.id = sb ∧ c.isRevealed = false)
    (hsc : ∃ c ∈ pb.cards, c.id = sc ∧ c.isRevealed = false)
    (hsd : ∃ c ∈ pc.cards, c.id = sd ∧ c.isRevealed = false)
    (hsa : ∃ c ∈ pd.cards, c.id = sa ∧ c.isRevealed = false)
    (hnodup : ((flatCards s.players).map (·.id)).Nodup) :
    (processPlayerAction rand s pa.id (Action.CONSPIRACY_SELECT sa)).players.map
        (fun p => p.cards.length) = s.players.map (fun p => p.cards.length) ∧
    (flatCards (processPlayerAction rand s pa.id
        (Action.CONSPIRACY_SELECT sa)).players).Perm (flatCards s.players) ∧
    ((flatCards (processPlayerAction rand s pa.id
        (Action.CONSPIRACY_SELECT sa)).players).map (·.id)).Nodup := by
  -- directed beq facts between the four distinct ids
  have e1 : (pa.id == pb.id) = false := beq_eq_false_iff_ne.mpr hab
  have e2 : (pa.id == pc.id) = false := beq_eq_false_iff_ne.mpr hac
  have e3 : (pa.id == pd.id) = false := beq_eq_false_iff_ne.mpr had
  have e4 : (pb.id == pa.id) = false := beq_eq_false_iff_ne.mpr (Ne.symm hab)
  have e5 : (pb.id == pc.id) = false := beq_eq_false_iff_ne.mpr hbc
  have e6 : (pb.id == pd.id) = false := beq_eq_false_iff_ne.mpr hbd
  have e7 : (pc.id == pa.id) = false := beq_eq_false_iff_ne.mpr (Ne.symm hac)
  have e8 : (pc.id == pb.id) = false := beq_eq_false_iff_ne.mpr (Ne.symm hbc)
  have e9 : (pc.id == pd.id) = false := beq_eq_false_iff_ne.mpr hcd
  have e10 : (pd.id == pa.id) = false := beq_eq_false_iff_ne.mpr (Ne.symm had)
  have e11 : (pd.id == pb.id) = false := beq_eq_false_iff_ne.mpr (Ne.symm hbd)
  have e12 : (pd.id == pc.id) = false := beq_eq_false_iff_ne.mpr (Ne.symm hcd)
  -- the four splices, computed from the pre-transfer snapshot hands
  obtain ⟨cB, restA, hrmA, hcBid, hpermA, hlenA⟩ := removeFirst_spec pa.cards sb
    (by obtain ⟨c, hm, hid, _⟩ := hsb; exact ⟨c, hm, hid⟩)
  obtain ⟨cC, restB, hrmB0, hcCid, hpermB, hlenB⟩ := removeFirst_spec pb.cards sc
    (by obtain ⟨c, hm, hid, _⟩ := hsc; exact ⟨c, hm, hid⟩)
  obtain ⟨cD, restC, hrmC0, hcDid, hpermC, hlenC⟩ := removeFirst_spec pc.cards sd
    (by obtain ⟨c, hm, hid, _⟩ := hsd; exact ⟨c, hm, hid⟩)
  obtain ⟨cA, restD, hrmD0, hcAid, hpermD, hlenD⟩ := removeFirst_spec pd.cards sa
    (by obtain ⟨c, hm, hid, _⟩ := hsa; exact ⟨c, hm, hid⟩)
  have hrmB := removeFirst_append_left pb.cards [cB] sc cC restB hrmB0
  have hrmC := removeFirst_append_left pc.cards [cC] sd cD restC hrmC0
  have hrmD := removeFirst_append_left pd.cards [cD] sa cA restD hrmD0
  -- the selection list after the fourth selection arrives
  have hfilter : s.conspiracySelections.filter (fun x => x.playerId != pa.id) =
      [⟨pb.id, sb⟩, ⟨pc.id, sc⟩, ⟨pd.id, sd⟩] := by
    rw [hsel]
    simp [bne_iff_ne, Ne.symm hab, Ne.symm hac, Ne.symm had]
  have happ : (s.conspiracySelections.filter (fun x => x.playerId != pa.id)) ++
      ([⟨pa.id, sa⟩] : List ConspiracySelection) =
      [⟨pb.id, sb⟩, ⟨pc.id, sc⟩, ⟨pd.id, sd⟩, ⟨pa.id, sa⟩] := by
    rw [hfilter]
    rfl
  have hcond : ((s.players.filter (fun p => !p.isDead && !p.isGhost)).all (fun p =>
      ([⟨pb.id, sb⟩, ⟨pc.id, sc⟩, ⟨pd.id, sd⟩, ⟨pa.id, sa⟩] :
        List ConspiracySelection).any (fun x => x.playerId == p.id))) = true := by
    rw [hplayers]
    simp [ha1, hb1, hc1, hd1, ha2, hb2, hc2, hd2]
  have hstep : applyAction rand s pa.id (Action.CONSPIRACY_SELECT sa) =
      resolveConspiracy rand { s with conspiracySelections :=
        [⟨pb.id, sb⟩, ⟨pc.id, sc⟩, ⟨pd.id, sd⟩, ⟨pa.id, sa⟩] } := by
    simp only [applyAction, conspiracyStep]
    rw [happ, if_pos hcond]
  -- ghost auto-selection is a no-op: no ghosts
  have hghosts : ghostAutoSelect rand [pa, pb, pc, pd]
      [⟨pb.id, sb⟩, ⟨pc.id, sc⟩, ⟨pd.id, sd⟩, ⟨pa.id, sa⟩] =
      [⟨pb.id, sb⟩, ⟨pc.id, sc⟩, ⟨pd.id, sd⟩, ⟨pa.id, sa⟩] := by
    simp [ghostAutoSelect, ha1, hb1, hc1, hd1, ha2, hb2, hc2, hd2]
  have htrans : computeTransfers [pa, pb, pc, pd]
      [⟨pb.id, sb⟩, ⟨pc.id, sc⟩, ⟨pd.id, sd⟩, ⟨pa.id, sa⟩] =
      [⟨pa.id, pb.id, sb⟩, ⟨pb.id, pc.id, sc⟩, ⟨pc.id, pd.id, sd⟩,
       ⟨pd.id, pa.id, sa⟩] := by
    simp [computeTransfers, leftNeighborIdx, List.findIdx?_cons, List.find?_cons,
      ha1, hb1, hc1, hd1, e1, e2, e3, e4, e5, e6, e7, e8, e9, e10, e11, e12,
      hab, hac, had, hbc, hbd, hcd, Ne.symm hab, Ne.symm hac, Ne.symm had,
      Ne.symm hbc, Ne.symm hbd, Ne.symm hcd]
  -- the working map, step by step
  set m0 := initCardsMap [pa, pb, pc, pd] with hm0
  have hm0a : m0 pa.id = some pa.cards := by
    rw [hm0]
    simp [initCardsMap, setEntry, e1, e2, e3]
  have hm0b : m0 pb.id = some pb.cards := by
    rw [hm0]
    simp [initCardsMap, setEntry, e4, e5, e6]
  have hm0c : m0 pc.id = some pc.cards := by
    rw [hm0]
    simp [initCardsMap, setEntry, e7, e8, e9]
  have hm0d : m0 pd.id = some pd.cards := by
    rw [hm0]
    simp [initCardsMap, setEntry, e10, e11, e12]
  set m1 := (execTransfer (m0, ([] : List String)) ⟨pa.id, pb.id, sb⟩).1 with hm1
  have h1a : m1 pa.id = some restA := by
    rw [hm1]
    simp [execTransfer, hm0a, hm0b, hrmA, setEntry, e1]
  have h1b : m1 pb.id = some (pb.cards ++ [cB]) := by
    rw [hm1]
    simp [execTransfer, hm0a, hm0b, hrmA, setEntry, e4]
  have h1c : m1 pc.id = some pc.cards := by
    rw [hm1]
    simp [execTransfer, hm0a, hm0b, hm0c, hrmA, setEntry, e7, e8]
  have h1d : m1 pd.id = some pd.cards := by
    rw [hm1]
    simp [execTransfer, hm0a, hm0b, hm0d, hrmA, setEntry, e10, e11]
  set m2 := (execTransfer (m1, ([] : List String)) ⟨pb.id, pc.id, sc⟩).1 with hm2
  have h2a : m2 pa.id = some restA := by
    rw [hm2]
    simp [execTransfer, h1b, h1c, h1a, hrmB, setEntry, e1, e2]
  have h2b : m2 pb.id = some (restB ++ [cB]) := by
    rw [hm2]
    simp [execTransfer, h1b, h1c, hrmB, setEntry, e5]
  have h2c : m2 pc.id = some (pc.cards ++ [cC]) := by
    rw [hm2]
    simp [execTransfer, h1b, h1c, hrmB, setEntry, e8]
  have h2d : m2 pd.id = some pd.cards := by
    rw [hm2]
    simp [execTransfer, h1b, h1c, h1d, hrmB, setEntry, e10, e11, e12]
  set m3 := (execTransfer (m2, ([] : List String)) ⟨pc.id, pd.id, sd⟩).1 with hm3
  have h3a : m3 pa.id = some restA := by
    rw [hm3]
    simp [execTransfer, h2c, h2d, h2a, hrmC, setEntry, e1, e2, e3]
  have h3b : m3 pb.id = some (restB ++ [cB]) := by
    rw [hm3]
    simp [execTransfer, h2c, h2d, h2b, hrmC, setEntry, e5, e6]
  have h3c : m3 pc.id = some (restC ++ [cC]) := by
    rw [hm3]
    simp [execTransfer, h2c, h2d, hrmC, setEntry, e9]
  have h3d : m3 pd.id = some (pd.cards ++ [cD]) := by
    rw [hm3]
    simp [execTransfer, h2c, h2d, hrmC, setEntry, e12]
  set m4 := (execTransfer (m3, ([] : List String)) ⟨pd.id, pa.id, sa⟩).1 with hm4
  have h4a : m4 pa.id = some (restA ++ [cA]) := by
    rw [hm4]
    simp [execTransfer, h3d, h3a, hrmD, setEntry, e3, had]
  have h4b : m4 pb.id = some (restB ++ [cB]) := by
    rw [hm4]
    simp [execTransfer, h3d, h3a, h3b, hrmD, setEntry, e4, e6]
  have h4c : m4 pc.id = some (restC ++ [cC]) := by
    rw [hm4]
    simp [execTransfer, h3d, h3a, h3c, hrmD, setEntry, e7, e9]
  have h4d : m4 pd.id = some (restD ++ [cD]) := by
    rw [hm4]
    simp [execTransfer, h3d, h3a, hrmD, setEntry, e10]
  have hfold : ((([⟨pa.id, pb.id, sb⟩, ⟨pb.id, pc.id, sc⟩, ⟨pc.id, pd.id, sd⟩,
      ⟨pd.id, pa.id, sa⟩] : List CardTransfer).foldl execTransfer
        (m0, ([] : List String))).1) = m4 := by
    rw [foldl_execTransfer_fst]
    simp only [List.foldl_cons, List.foldl_nil]
  have hpermAll : (flatCards (processPlayerAction rand s pa.id
      (Action.CONSPIRACY_SELECT sa)).players).Perm (flatCards s.players) := by
    rw [process_players_eq, hstep]
    simp only [resolveConspiracy]
    rw [hplayers, hghosts, htrans, ← hm0, hfold]
    simp only [List.map_cons, List.map_nil, flatCards, List.flatten]
    rw [h4a, h4b, h4c, h4d]
    simp only [Option.getD_some, List.append_nil]
    refine List.Perm.trans (List.Perm.append (hperm _) (List.Perm.append (hperm _)
      (List.Perm.append (hperm _) (hperm _)))) ?_
    refine List.Perm.trans (perm_rotate4 restA restB restC restD cA cB cC cD) ?_
    exact List.Perm.append hpermA.symm (List.Perm.append hpermB.symm
      (List.Perm.append hpermC.symm hpermD.symm))
  refine ⟨?_, hpermAll, ?_⟩
  · rw [process_players_eq, hstep]
    simp only [resolveConspiracy]
    rw [hplayers, hghosts, htrans, ← hm0, hfold]
    simp only [List.map_cons, List.map_nil]
    rw [h4a, h4b, h4c, h4d]
    simp only [Option.getD_some]
    have hl1 : (rand.shuffleCards (restA ++ [cA])).length = pa.cards.length := by
      rw [(hperm _).length_eq]
      simp [hlenA]
    have hl2 : (rand.shuffleCards (restB ++ [cB])).length = pb.cards.length := by
      rw [(hperm _).length_eq]
      simp [hlenB]
    have hl3 : (rand.shuffleCards (restC ++ [cC])).length = pc.cards.length := by
      rw [(hperm _).length_eq]
      simp [hlenC]
    have hl4 : (rand.shuffleCards (restD ++ [cD])).length = pd.cards.length := by
      rw [(hperm _).length_eq]
      simp [hlenD]
    simp [hl1, hl2, hl3, hl4]
  · have hmap := hpermAll.map (fun c : Card => c.id)
    exact (List.Perm.nodup_iff hmap).mpr hnodup

/-- Closed witness for C7 at a concrete 4-player rotation. -/
theorem conspiracy_rotation_preserves_hands_witness :
    (processPlayerAction trivialRand c7State "a"
        (Action.CONSPIRACY_SELECT "d1")).players.map
        (fun p => p.cards.length) = c7State.players.map (fun p => p.cards.length) ∧
    (flatCards (processPlayerAction trivialRand c7State "a"
        (Action.CONSPIRACY_SELECT "d1")).players).Perm (flatCards c7State.players) ∧
    ((flatCards (processPlayerAction trivialRand c7State "a"
        (Action.CONSPIRACY_SELECT "d1")).players).map (·.id)).Nodup := by
  exact conspiracy_rotation_preserves_hands trivialRand c7State c7A c7B c7C c7D
    "d1" "a2" "b1" "c2"
    (fun l => List.Perm.refl l)
    rfl rfl rfl rfl rfl rfl rfl rfl rfl rfl
    (by decide) (by decide) (by decide) (by decide) (by decide) (by decide)
    (by decide) (by decide) (by decide) (by decide)
    (by decide)

end Salem
